import Mathlib

/-!
# Verification of the Ridax inventory invoice engine (sales subsystem)

This file embeds the invoice calculation and mutation engine of
`backend/app/api/routes/sales.py` in Lean 4 and proves the testable
properties stated in the specification.

Modelling conventions:

* Python `float` money arithmetic is embedded as exact rational arithmetic
  (`ℚ`).  Python's `round(x, n)` rounds half to even (banker's rounding);
  it is embedded as exact half-even rounding on `ℚ` (`round2`, and
  `roundHalfEven` for `round(x)` to a whole unit).
* Database rows (`Product`, `Sale`, `InventoryMovement`) are structures;
  the database session is an explicit `DBState` value threaded through the
  lifecycle operations, which return `Except Err (DBState × result)`.
  A raised `HTTPException` is an `Except.error`, and — matching the
  transactional semantics, where nothing is committed when a handler
  raises — an error leaves the state unchanged.
* External collaborators (settings store, currency-rate table, user/role
  directory, clock, uuid generator) are supplied as a read-only context.
* Python `str.strip` / `str.upper` are embedded structurally over the
  character list of a `String` (`pyStrip`, `pyUpper`) so that they compute.
-/

/-- Exact half-to-even rounding of a rational to an integer.  This is the
behaviour of Python's built-in `round(x)`. -/
def roundHalfEven (x : ℚ) : ℤ :=
  let f := ⌊x⌋
  let r := x - (f : ℚ)
  if r < 1/2 then f
  else if 1/2 < r then f + 1
  else if f % 2 = 0 then f else f + 1

/-- Python's `round(x, 2)`: half-to-even rounding to two decimal places,
embedded exactly on `ℚ`. -/
def round2 (x : ℚ) : ℚ := (roundHalfEven (100 * x) : ℚ) / 100

/-- A rational is a whole number of cents. -/
def IsCent (x : ℚ) : Prop := ∃ n : ℤ, x = (n : ℚ) / 100

theorem roundHalfEven_intCast (n : ℤ) : roundHalfEven (n : ℚ) = n := by
  unfold roundHalfEven
  simp [Int.floor_intCast]

theorem isCent_round2 (x : ℚ) : IsCent (round2 x) := ⟨roundHalfEven (100 * x), rfl⟩

theorem isCent_zero : IsCent 0 := ⟨0, by norm_num⟩

theorem isCent_intCast (n : ℤ) : IsCent (n : ℚ) := ⟨100 * n, by push_cast; ring⟩

theorem IsCent.add {x y : ℚ} (hx : IsCent x) (hy : IsCent y) : IsCent (x + y) := by
  obtain ⟨n, rfl⟩ := hx
  obtain ⟨m, rfl⟩ := hy
  exact ⟨n + m, by push_cast; ring⟩

theorem IsCent.neg {x : ℚ} (hx : IsCent x) : IsCent (-x) := by
  obtain ⟨n, rfl⟩ := hx
  exact ⟨-n, by push_cast; ring⟩

theorem IsCent.sub {x y : ℚ} (hx : IsCent x) (hy : IsCent y) : IsCent (x - y) := by
  simpa [sub_eq_add_neg] using hx.add hy.neg

theorem IsCent.round2_eq {x : ℚ} (hx : IsCent x) : round2 x = x := by
  obtain ⟨n, rfl⟩ := hx
  unfold round2
  rw [show (100 : ℚ) * ((n : ℚ) / 100) = (n : ℚ) by ring, roundHalfEven_intCast]

theorem roundHalfEven_nonneg {x : ℚ} (hx : 0 ≤ x) : 0 ≤ roundHalfEven x := by
  unfold roundHalfEven
  have hf : (0 : ℤ) ≤ ⌊x⌋ := by
    simpa using Int.floor_le_floor hx
  dsimp only
  split
  · exact hf
  · split
    · omega
    · split <;> omega

theorem roundHalfEven_nonpos {x : ℚ} (hx : x ≤ 0) : roundHalfEven x ≤ 0 := by
  unfold roundHalfEven
  have hf : (⌊x⌋ : ℚ) ≤ x := Int.floor_le x
  have hf0 : ⌊x⌋ ≤ 0 := by
    have : (⌊x⌋ : ℚ) ≤ 0 := le_trans hf hx
    exact_mod_cast this
  dsimp only
  split
  · exact hf0
  · rename_i h1
    push_neg at h1
    have hlt : (⌊x⌋ : ℚ) < 0 := by
      have : (⌊x⌋ : ℚ) + 1/2 ≤ x := by linarith
      linarith
    have hneg : ⌊x⌋ < 0 := by exact_mod_cast hlt
    split
    · omega
    · split <;> omega

theorem round2_nonneg {x : ℚ} (hx : 0 ≤ x) : 0 ≤ round2 x := by
  unfold round2
  have : (0 : ℚ) ≤ (roundHalfEven (100 * x) : ℚ) := by
    exact_mod_cast roundHalfEven_nonneg (by positivity)
  positivity

theorem round2_nonpos {x : ℚ} (hx : x ≤ 0) : round2 x ≤ 0 := by
  unfold round2
  have h100 : 100 * x ≤ 0 := by linarith
  have : (roundHalfEven (100 * x) : ℚ) ≤ 0 := by
    exact_mod_cast roundHalfEven_nonpos h100
  linarith

theorem round2_zero : round2 0 = 0 := isCent_zero.round2_eq

theorem isCent_listSum (l : List ℚ) (h : ∀ x ∈ l, IsCent x) : IsCent l.sum := by
  induction l with
  | nil => simpa using isCent_zero
  | cons a t ih =>
    rw [List.sum_cons]
    exact (h a (by simp)).add (ih fun x hx => h x (by simp [hx]))

/-! ## Data model (`app/models/product.py`, `app/models/sale.py`,
`app/models/inventory.py`) and the external-collaborator context -/

/-- `Product` row (`app/models/product.py`), restricted to the fields read or
written by the sales subsystem. -/
structure Product where
  id : ℕ
  sku : String := ""
  name : String := ""
  cost_amount : ℚ := 0
  final_customer_price : ℚ := 0
  stock : ℤ := 0
  is_active : Bool := true
deriving DecidableEq, Repr

/-- Resolved values of the system settings read by the sales routes
(`get_setting_bool` / `get_setting_float` / `get_setting_value` with their
defaults); the settings store is an external collaborator. -/
structure Settings where
  invoice_tax_enabled : Bool := false
  invoice_tax_percent : ℚ := 16
  sales_rounding_mode : String := "none"
  sales_commission_pct : ℚ := 7
deriving DecidableEq, Repr

/-- The `HTTPException`s raised by the sales routes, one constructor per
`raise` site relevant to the modelled operations. -/
inductive Err where
  /-- "La factura debe tener al menos un articulo" -/
  | emptyInvoice
  /-- "Debes indicar el nombre del cliente" -/
  | emptyCustomerName
  /-- "Solo admin puede definir total manual de factura" -/
  | forbiddenManualTotal
  /-- "Moneda invalida" -/
  | invalidCurrency
  /-- "Producto ... no encontrado" (404) -/
  | productNotFound (product_id : ℕ)
  /-- "Cantidad invalida" -/
  | invalidQuantity
  /-- "Stock insuficiente para ..." -/
  | insufficientStock (sku : String)
  /-- "El total manual debe ser mayor a cero" -/
  | invalidManualTotal
  /-- "La factura debe tener al menos una linea" -/
  | emptyLines
  /-- "No puedes asignar ventas a otro vendedor" (403) -/
  | forbiddenSeller
  /-- "Vendedor invalido" -/
  | invalidSeller
  /-- "Moneda de pago invalida" -/
  | invalidPaymentCurrency
  /-- "Monto pagado invalido" -/
  | invalidPaymentAmount
  /-- "Solo admin puede anular facturas" (403) -/
  | forbiddenVoid
  /-- "Debes seleccionar al menos una factura" -/
  | noInvoicesSelected
  /-- "No se encontraron facturas activas para anular" (404) -/
  | notFoundActive
deriving DecidableEq, Repr

/-- One line dict produced by `build_invoice_lines` (`sales.py:145-156`). -/
structure Line where
  product : Product
  quantity : ℤ
  unit_price_usd : ℚ
  subtotal_usd : ℚ
  discount_amount_usd : ℚ
  tax_pct : ℚ
  tax_amount_usd : ℚ
  total_usd : ℚ
deriving DecidableEq, Repr

/-- The calc dict returned by `build_invoice_lines` (`sales.py:158-166`). -/
structure Calc where
  discount_pct : ℚ
  subtotal : ℚ
  discount_amount : ℚ
  tax_pct : ℚ
  tax_amount : ℚ
  total : ℚ
  lines : List Line
deriving DecidableEq, Repr

/-- Sum of a per-line field over a list of lines. -/
def sumBy (f : Line → ℚ) (l : List Line) : ℚ := (l.map f).sum

/-! ## Line Pricer: `build_invoice_lines` (`sales.py:102-166`) -/

/-- First loop of `build_invoice_lines` (`sales.py:109-114`): validate each
quantity and compute `line_subtotal = round(quantity * final_customer_price, 2)`,
collecting `(product, quantity, line_subtotal)` triples. -/
def collectLineSubtotals : List (Product × ℤ) → Except Err (List (Product × ℤ × ℚ))
  | [] => .ok []
  | (p, q) :: rest =>
    if q ≤ 0 then .error .invalidQuantity
    else do
      let tail ← collectLineSubtotals rest
      .ok ((p, q, round2 ((q : ℚ) * p.final_customer_price)) :: tail)

/-- Proration loop of `build_invoice_lines` (`sales.py:127-156`).
`S`, `D`, `T`, `total` are the invoice-level subtotal, discount amount, tax
amount and total; `dd`, `dt`, `dtot` are the running distributed sums.  Every
line except the last gets `round(amount * ratio, 2)` for discount and tax and
`round((line_subtotal - line_discount) + line_tax, 2)` for its total; the last
line gets the invoice-level amount minus the running distributed sum. -/
def prorateLines (S D T total taxPct : ℚ) :
    List (Product × ℤ × ℚ) → ℚ → ℚ → ℚ → List Line
  | [], _, _, _ => []
  | [(p, q, sub)], dd, dt, dtot =>
    [{ product := p, quantity := q, unit_price_usd := p.final_customer_price,
       subtotal_usd := sub,
       discount_amount_usd := round2 (D - dd), tax_pct := taxPct,
       tax_amount_usd := round2 (T - dt), total_usd := round2 (total - dtot) }]
  | (p, q, sub) :: l₂ :: rest, dd, dt, dtot =>
    let ratio := if 0 < S then sub / S else 0
    let d := round2 (D * ratio)
    let t := round2 (T * ratio)
    let tot := round2 ((sub - d) + t)
    { product := p, quantity := q, unit_price_usd := p.final_customer_price,
      subtotal_usd := sub,
      discount_amount_usd := d, tax_pct := taxPct,
      tax_amount_usd := t, total_usd := tot } ::
      prorateLines S D T total taxPct (l₂ :: rest) (dd + d) (dt + t) (dtot + tot)

/-- `build_invoice_lines` (`sales.py:102-166`).  The settings lookups
(`invoice_tax_enabled`, `invoice_tax_percent`, `sales_rounding_mode`) are
taken from the resolved `Settings` context. -/
def buildInvoiceLines (st : Settings) (items : List (Product × ℤ))
    (discount_pct : ℚ) : Except Err Calc := do
  let subs ← collectLineSubtotals items
  let invoice_subtotal := round2 ((subs.map (fun e => e.2.2)).sum)
  let dpct := max 0 discount_pct
  let invoice_discount_amount := round2 (invoice_subtotal * (dpct / 100))
  let taxable_base := round2 (invoice_subtotal - invoice_discount_amount)
  let tax_pct := if st.invoice_tax_enabled then st.invoice_tax_percent else 0
  let invoice_tax_amount := round2 (taxable_base * (tax_pct / 100))
  let pre_round_total := round2 (taxable_base + invoice_tax_amount)
  let invoice_total :=
    if st.sales_rounding_mode = "nearest_integer" then
      (roundHalfEven pre_round_total : ℚ)
    else pre_round_total
  .ok { discount_pct := dpct
        subtotal := invoice_subtotal
        discount_amount := invoice_discount_amount
        tax_pct := tax_pct
        tax_amount := invoice_tax_amount
        total := invoice_total
        lines := prorateLines invoice_subtotal invoice_discount_amount
          invoice_tax_amount invoice_total tax_pct subs 0 0 0 }

theorem exceptOk_bind {ε α β : Type} (a : α) (f : α → Except ε β) :
    (Except.ok a >>= f) = f a := rfl

theorem exceptErr_bind {ε α β : Type} (e : ε) (f : α → Except ε β) :
    ((Except.error e : Except ε α) >>= f) = Except.error e := rfl

theorem sumBy_nil (f : Line → ℚ) : sumBy f [] = 0 := rfl

theorem sumBy_cons (f : Line → ℚ) (a : Line) (l : List Line) :
    sumBy f (a :: l) = f a + sumBy f l := by
  simp [sumBy]

theorem collectLineSubtotals_ok :
    ∀ (items : List (Product × ℤ)), (∀ x ∈ items, 0 < x.2) →
      ∃ subs, collectLineSubtotals items = .ok subs ∧ subs.length = items.length := by
  intro items
  induction items with
  | nil => exact fun _ => ⟨[], rfl, rfl⟩
  | cons hd tl ih =>
    intro h
    obtain ⟨p, q⟩ := hd
    obtain ⟨subs, hsubs, hlen⟩ := ih fun x hx => h x (by simp [hx])
    have hq : 0 < q := h (p, q) (by simp)
    refine ⟨(p, q, round2 ((q : ℚ) * p.final_customer_price)) :: subs, ?_, by simp [hlen]⟩
    simp [collectLineSubtotals, hsubs, not_le.mpr hq, exceptOk_bind]

theorem collectLineSubtotals_err :
    ∀ (items : List (Product × ℤ)), (∃ x ∈ items, x.2 ≤ 0) →
      collectLineSubtotals items = .error .invalidQuantity := by
  intro items
  induction items with
  | nil => rintro ⟨x, hx, -⟩; simp at hx
  | cons hd tl ih =>
    rintro ⟨x, hx, hxq⟩
    obtain ⟨p, q⟩ := hd
    by_cases hq : q ≤ 0
    · simp [collectLineSubtotals, hq]
    · rcases List.mem_cons.mp hx with rfl | hmem
      · exact absurd hxq hq
      · have := ih ⟨x, hmem, hxq⟩
        simp [collectLineSubtotals, hq, this, exceptErr_bind]

theorem prorateLines_length (S D T total taxPct : ℚ) :
    ∀ (subs : List (Product × ℤ × ℚ)) (dd dt dtot : ℚ),
      (prorateLines S D T total taxPct subs dd dt dtot).length = subs.length := by
  intro subs
  induction subs with
  | nil => intro dd dt dtot; rfl
  | cons hd tl ih =>
    intro dd dt dtot
    obtain ⟨p, q, sub⟩ := hd
    cases tl with
    | nil => rfl
    | cons b l => simp only [prorateLines, List.length_cons, ih]

theorem prorateLines_ne_nil (S D T total taxPct : ℚ)
    (subs : List (Product × ℤ × ℚ)) (dd dt dtot : ℚ) (h : subs ≠ []) :
    prorateLines S D T total taxPct subs dd dt dtot ≠ [] := by
  intro hc
  apply h
  have := prorateLines_length S D T total taxPct subs dd dt dtot
  rw [hc] at this
  exact List.length_eq_zero.mp this.symm

/-- The running-sum invariant of the proration loop: over any non-empty tail,
the emitted discounts, taxes and totals sum to the invoice-level amount minus
the running distributed sum, provided all amounts are whole cents (the last
line absorbs the residual exactly). -/
theorem prorateLines_sums (S D T total taxPct : ℚ)
    (hD : IsCent D) (hT : IsCent T) (htot : IsCent total) :
    ∀ (subs : List (Product × ℤ × ℚ)), subs ≠ [] → ∀ (dd dt dtot : ℚ),
      IsCent dd → IsCent dt → IsCent dtot →
      sumBy (·.discount_amount_usd) (prorateLines S D T total taxPct subs dd dt dtot) = D - dd ∧
      sumBy (·.tax_amount_usd) (prorateLines S D T total taxPct subs dd dt dtot) = T - dt ∧
      sumBy (·.total_usd) (prorateLines S D T total taxPct subs dd dt dtot) = total - dtot := by
  intro subs
  induction subs with
  | nil => intro h; exact absurd rfl h
  | cons hd tl ih =>
    intro _ dd dt dtot hdd hdt hdtot
    obtain ⟨p, q, sub⟩ := hd
    cases tl with
    | nil =>
      simp only [prorateLines, sumBy_cons, sumBy_nil]
      refine ⟨?_, ?_, ?_⟩ <;>
        rw [(IsCent.sub (by assumption) (by assumption)).round2_eq] <;> ring
    | cons b l =>
      simp only [prorateLines, sumBy_cons]
      obtain ⟨ihd, iht, ihtot⟩ :=
        ih (by simp) (dd + round2 (D * if 0 < S then sub / S else 0))
          (dt + round2 (T * if 0 < S then sub / S else 0))
          (dtot + round2 ((sub - round2 (D * if 0 < S then sub / S else 0)) +
            round2 (T * if 0 < S then sub / S else 0)))
          (hdd.add (isCent_round2 _)) (hdt.add (isCent_round2 _))
          (hdtot.add (isCent_round2 _))
      rw [ihd, iht, ihtot]
      refine ⟨by ring, by ring, by ring⟩

/-- Per-line characterization of the proration loop for every line except the
last: discount and tax are `round(amount * ratio, 2)` with
`ratio = line_subtotal / invoice_subtotal` (0 when the subtotal is not
positive), and the total is `round((line_subtotal - line_discount) + line_tax, 2)`. -/
theorem prorateLines_get (S D T total taxPct : ℚ) :
    ∀ (subs : List (Product × ℤ × ℚ)) (dd dt dtot : ℚ) (i : ℕ) (li : Line),
      i + 1 < (prorateLines S D T total taxPct subs dd dt dtot).length →
      (prorateLines S D T total taxPct subs dd dt dtot)[i]? = some li →
      li.discount_amount_usd = round2 (D * (if 0 < S then li.subtotal_usd / S else 0)) ∧
      li.tax_amount_usd = round2 (T * (if 0 < S then li.subtotal_usd / S else 0)) ∧
      li.total_usd = round2 ((li.subtotal_usd - li.discount_amount_usd) + li.tax_amount_usd) := by
  intro subs
  induction subs with
  | nil => intro dd dt dtot i li hlen hget; simp [prorateLines] at hget
  | cons hd tl ih =>
    intro dd dt dtot i li hlen hget
    obtain ⟨p, q, sub⟩ := hd
    cases tl with
    | nil => simp [prorateLines] at hlen
    | cons b l =>
      rw [prorateLines] at hlen hget
      cases i with
      | zero =>
        simp only [List.getElem?_cons_zero, Option.some.injEq] at hget
        subst hget
        exact ⟨rfl, rfl, rfl⟩
      | succ j =>
        simp only [List.getElem?_cons_succ] at hget
        simp only [List.length_cons] at hlen
        exact ih _ _ _ j li (by omega) hget

/-- The last emitted line of the proration loop gets the invoice-level amount
minus the distributed sum over the earlier lines (offset by the incoming
running sums). -/
theorem prorateLines_getLast (S D T total taxPct : ℚ) :
    ∀ (subs : List (Product × ℤ × ℚ)) (dd dt dtot : ℚ) (ll : Line),
      (prorateLines S D T total taxPct subs dd dt dtot).getLast? = some ll →
      ll.discount_amount_usd = round2 (D - (dd +
        sumBy (·.discount_amount_usd) (prorateLines S D T total taxPct subs dd dt dtot).dropLast)) ∧
      ll.tax_amount_usd = round2 (T - (dt +
        sumBy (·.tax_amount_usd) (prorateLines S D T total taxPct subs dd dt dtot).dropLast)) ∧
      ll.total_usd = round2 (total - (dtot +
        sumBy (·.total_usd) (prorateLines S D T total taxPct subs dd dt dtot).dropLast)) := by
  intro subs
  induction subs with
  | nil => intro dd dt dtot ll hget; simp [prorateLines] at hget
  | cons hd tl ih =>
    intro dd dt dtot ll hget
    obtain ⟨p, q, sub⟩ := hd
    cases tl with
    | nil =>
      simp only [prorateLines, List.getLast?_singleton, Option.some.injEq] at hget
      subst hget
      simp [prorateLines, sumBy_nil]
    | cons b l =>
      rw [prorateLines] at hget ⊢
      have hne : prorateLines S D T total taxPct (b :: l)
          (dd + round2 (D * if 0 < S then sub / S else 0))
          (dt + round2 (T * if 0 < S then sub / S else 0))
          (dtot + round2 ((sub - round2 (D * if 0 < S then sub / S else 0)) +
            round2 (T * if 0 < S then sub / S else 0))) ≠ [] :=
        prorateLines_ne_nil _ _ _ _ _ _ _ _ _ (by simp)
      obtain ⟨y, ys, hys⟩ := List.exists_cons_of_ne_nil hne
      rw [hys, List.getLast?_cons_cons] at hget
      obtain ⟨ihd, iht, ihtot⟩ := ih _ _ _ ll (by rw [hys]; exact hget)
      rw [hys] at ihd iht ihtot ⊢
      rw [List.dropLast_cons₂]
      refine ⟨?_, ?_, ?_⟩
      · rw [ihd, sumBy_cons]; ring_nf
      · rw [iht, sumBy_cons]; ring_nf
      · rw [ihtot, sumBy_cons]; ring_nf

theorem collectLineSubtotals_length :
    ∀ {items : List (Product × ℤ)} {subs : List (Product × ℤ × ℚ)},
      collectLineSubtotals items = .ok subs → subs.length = items.length := by
  intro items
  induction items with
  | nil => intro subs h; simp [collectLineSubtotals] at h; simp [← h]
  | cons hd tl ih =>
    intro subs h
    obtain ⟨p, q⟩ := hd
    by_cases hq : q ≤ 0
    · simp [collectLineSubtotals, hq] at h
    · rw [collectLineSubtotals] at h
      simp only [if_neg hq] at h
      cases htl : collectLineSubtotals tl with
      | error e => rw [htl, exceptErr_bind] at h; exact absurd h (by simp)
      | ok tail =>
        rw [htl, exceptOk_bind] at h
        obtain rfl : (p, q, round2 ((q : ℚ) * p.final_customer_price)) :: tail = subs := by
          simpa using h
        simp [ih htl]

/-- Inversion of a successful `build_invoice_lines` run: the calc aggregates
follow steps 1-5 of the pricing algorithm and the lines are the proration of
the collected `(product, quantity, line_subtotal)` triples. -/
theorem buildInvoiceLines_ok {st : Settings} {items : List (Product × ℤ)}
    {dpct : ℚ} {c : Calc} (h : buildInvoiceLines st items dpct = .ok c) :
    ∃ subs, collectLineSubtotals items = .ok subs ∧
      subs.length = items.length ∧
      c.discount_pct = max 0 dpct ∧
      c.subtotal = round2 ((subs.map (fun e => e.2.2)).sum) ∧
      c.discount_amount = round2 (c.subtotal * (c.discount_pct / 100)) ∧
      c.tax_pct = (if st.invoice_tax_enabled then st.invoice_tax_percent else 0) ∧
      c.tax_amount = round2 (round2 (c.subtotal - c.discount_amount) * (c.tax_pct / 100)) ∧
      c.total = (if st.sales_rounding_mode = "nearest_integer"
        then (roundHalfEven (round2 (round2 (c.subtotal - c.discount_amount) + c.tax_amount)) : ℚ)
        else round2 (round2 (c.subtotal - c.discount_amount) + c.tax_amount)) ∧
      c.lines = prorateLines c.subtotal c.discount_amount c.tax_amount c.total
        c.tax_pct subs 0 0 0 := by
  cases hc : collectLineSubtotals items with
  | error e => rw [buildInvoiceLines, hc, exceptErr_bind] at h; exact absurd h (by simp)
  | ok subs =>
    rw [buildInvoiceLines, hc, exceptOk_bind] at h
    obtain rfl : _ = c := by exact Except.ok.inj h
    exact ⟨subs, rfl, collectLineSubtotals_length hc, rfl, rfl, rfl, rfl, rfl, rfl, rfl⟩

theorem isCent_calc_total {st : Settings} {items : List (Product × ℤ)}
    {dpct : ℚ} {c : Calc} (h : buildInvoiceLines st items dpct = .ok c) :
    IsCent c.total := by
  obtain ⟨subs, -, -, -, -, -, -, -, htot, -⟩ := buildInvoiceLines_ok h
  rw [htot]
  split
  · exact isCent_intCast _
  · exact isCent_round2 _

/-- **C1.**  For every non-empty item list with positive quantities and every
discount percentage, `build_invoice_lines` succeeds and the per-line
`total_usd`, `discount_amount_usd` and `tax_amount_usd` sum exactly to the
invoice-level `total`, `discount_amount` and `tax_amount`, for every
rounding-mode setting. -/
theorem line_pricer_sums_exact (st : Settings) (items : List (Product × ℤ))
    (discount_pct : ℚ) (hne : items ≠ []) (hq : ∀ x ∈ items, 0 < x.2) :
    ∃ c, buildInvoiceLines st items discount_pct = .ok c ∧
      sumBy (·.total_usd) c.lines = c.total ∧
      sumBy (·.discount_amount_usd) c.lines = c.discount_amount ∧
      sumBy (·.tax_amount_usd) c.lines = c.tax_amount := by
  obtain ⟨subs, hsubs, hlen⟩ := collectLineSubtotals_ok items hq
  obtain ⟨c, hc⟩ : ∃ c, buildInvoiceLines st items discount_pct = .ok c := by
    rw [buildInvoiceLines, hsubs, exceptOk_bind]
    exact ⟨_, rfl⟩
  obtain ⟨subs', hsubs', hlen', -, -, hD, -, hT, htot, hlines⟩ := buildInvoiceLines_ok hc
  obtain rfl : subs = subs' := by
    rw [hsubs] at hsubs'
    exact Except.ok.inj hsubs'
  have hsubs_ne : subs ≠ [] := by
    intro hnil
    rw [hnil] at hlen
    exact hne (List.length_eq_zero.mp hlen.symm)
  have hDc : IsCent c.discount_amount := hD ▸ isCent_round2 _
  have hTc : IsCent c.tax_amount := hT ▸ isCent_round2 _
  have htotc : IsCent c.total := isCent_calc_total hc
  obtain ⟨hd, ht, htv⟩ := prorateLines_sums c.subtotal c.discount_amount c.tax_amount
    c.total c.tax_pct hDc hTc htotc subs hsubs_ne 0 0 0 isCent_zero isCent_zero isCent_zero
  exact ⟨c, hc, by rw [hlines, htv]; ring, by rw [hlines, hd]; ring,
    by rw [hlines, ht]; ring⟩

/-- Concrete products used by the witnesses (the worked example of the spec:
prices 100 and 50, discount 10%, tax disabled, rounding "none"). -/
def productA : Product :=
  { id := 1, sku := "SKU-A", name := "A", cost_amount := 40,
    final_customer_price := 100, stock := 10 }

def productB : Product :=
  { id := 2, sku := "SKU-B", name := "B", cost_amount := 20,
    final_customer_price := 50, stock := 10 }

/-- Witness for C1 at the spec's worked example. -/
theorem line_pricer_sums_exact_witness :
    ∃ c, buildInvoiceLines {} [(productA, 1), (productB, 1)] 10 = .ok c ∧
      sumBy (·.total_usd) c.lines = c.total ∧
      sumBy (·.discount_amount_usd) c.lines = c.discount_amount ∧
      sumBy (·.tax_amount_usd) c.lines = c.tax_amount :=
  line_pricer_sums_exact {} [(productA, 1), (productB, 1)] 10 (by simp)
    (by rintro ⟨p, q⟩ hx
        simp only [List.mem_cons, List.not_mem_nil, or_false, Prod.mk.injEq] at hx
        rcases hx with ⟨-, rfl⟩ | ⟨-, rfl⟩ <;> norm_num)

/-- **C2 (amended).**  Per-line proration rule actually implemented by
`build_invoice_lines`: for every line except the last, discount and tax are
`round(invoice_amount * ratio, 2)` with `ratio = line_subtotal /
invoice_subtotal` (0 if the invoice subtotal is not positive), but the line
total is `round((line_subtotal - line_discount) + line_tax, 2)` — not
`round(ratio * invoice_total, 2)`; the last line receives the invoice-level
amount minus the distributed sum of the earlier lines, for discount, tax and
total independently. -/
theorem line_pricer_proration_formulas {st : Settings} {items : List (Product × ℤ)}
    {dpct : ℚ} {c : Calc} (h : buildInvoiceLines st items dpct = .ok c) :
    (∀ i li, i + 1 < c.lines.length → c.lines[i]? = some li →
      li.discount_amount_usd =
        round2 (c.discount_amount * (if 0 < c.subtotal then li.subtotal_usd / c.subtotal else 0)) ∧
      li.tax_amount_usd =
        round2 (c.tax_amount * (if 0 < c.subtotal then li.subtotal_usd / c.subtotal else 0)) ∧
      li.total_usd =
        round2 ((li.subtotal_usd - li.discount_amount_usd) + li.tax_amount_usd)) ∧
    (∀ ll, c.lines.getLast? = some ll →
      ll.discount_amount_usd =
        round2 (c.discount_amount - sumBy (·.discount_amount_usd) c.lines.dropLast) ∧
      ll.tax_amount_usd =
        round2 (c.tax_amount - sumBy (·.tax_amount_usd) c.lines.dropLast) ∧
      ll.total_usd =
        round2 (c.total - sumBy (·.total_usd) c.lines.dropLast)) := by
  obtain ⟨subs, -, -, -, -, -, -, -, -, hlines⟩ := buildInvoiceLines_ok h
  constructor
  · intro i li hl hg
    rw [hlines] at hl hg
    exact prorateLines_get _ _ _ _ _ subs 0 0 0 i li hl hg
  · intro ll hg
    rw [hlines] at hg
    obtain ⟨hd, ht, htv⟩ := prorateLines_getLast _ _ _ _ _ subs 0 0 0 ll hg
    rw [zero_add] at hd ht htv
    rw [hlines]
    exact ⟨hd, ht, htv⟩

/-- Settings and products for the C2 counterexample: tax enabled at 16%,
rounding mode "none", prices 0.04 and 0.25, discount 5%. -/
def cexSettings : Settings :=
  { invoice_tax_enabled := true, invoice_tax_percent := 16,
    sales_rounding_mode := "none", sales_commission_pct := 7 }

def cexProduct1 : Product :=
  { id := 3, sku := "SKU-C1", final_customer_price := 4/100, stock := 5 }

def cexProduct2 : Product :=
  { id := 4, sku := "SKU-C2", final_customer_price := 25/100, stock := 5 }

/-- **C2 (counterexample).**  On the two-line invoice with line subtotals
0.04 and 0.25, discount 5% and tax 16%, the code's first-line total is 0.05,
while the claimed formula `round(ratio * invoice_total, 2)` gives
`round(0.32 * (0.04/0.29), 2) = 0.04`. -/
theorem line_pricer_nonlast_total_counterexample :
    ((buildInvoiceLines cexSettings [(cexProduct1, 1), (cexProduct2, 1)] 5).map
        (fun c => (c.subtotal, c.total, c.lines.map (·.subtotal_usd),
          c.lines.map (·.total_usd)))
      = .ok (29/100, 32/100, [4/100, 25/100], [5/100, 27/100])) ∧
    round2 ((32 : ℚ)/100 * ((4/100) / (29/100))) = 4/100 ∧
    (5 : ℚ)/100 ≠ 4/100 := by
  have hs : (("none" : String) = "nearest_integer") = False := eq_false (by decide)
  refine ⟨?_, ?_, by norm_num⟩
  · norm_num [buildInvoiceLines, collectLineSubtotals, prorateLines, cexSettings,
      cexProduct1, cexProduct2, exceptOk_bind, round2, roundHalfEven, Except.map,
      -Int.self_sub_floor, hs]
  · norm_num [round2, roundHalfEven, -Int.self_sub_floor]

/-- The calc produced for the spec's worked example (prices 100/50, qty 1,
discount 10%, tax disabled, rounding "none"). -/
def c2wLine1 : Line :=
  { product := productA, quantity := 1, unit_price_usd := 100, subtotal_usd := 100,
    discount_amount_usd := 10, tax_pct := 0, tax_amount_usd := 0, total_usd := 90 }

def c2wLine2 : Line :=
  { product := productB, quantity := 1, unit_price_usd := 50, subtotal_usd := 50,
    discount_amount_usd := 5, tax_pct := 0, tax_amount_usd := 0, total_usd := 45 }

def c2wCalc : Calc :=
  { discount_pct := 10, subtotal := 150, discount_amount := 15, tax_pct := 0,
    tax_amount := 0, total := 135, lines := [c2wLine1, c2wLine2] }

/-- Witness for the amended C2, at the spec's worked example. -/
theorem line_pricer_proration_formulas_witness :
    (∀ i li, i + 1 < c2wCalc.lines.length → c2wCalc.lines[i]? = some li →
      li.discount_amount_usd = round2 (c2wCalc.discount_amount *
        (if 0 < c2wCalc.subtotal then li.subtotal_usd / c2wCalc.subtotal else 0)) ∧
      li.tax_amount_usd = round2 (c2wCalc.tax_amount *
        (if 0 < c2wCalc.subtotal then li.subtotal_usd / c2wCalc.subtotal else 0)) ∧
      li.total_usd =
        round2 ((li.subtotal_usd - li.discount_amount_usd) + li.tax_amount_usd)) ∧
    (∀ ll, c2wCalc.lines.getLast? = some ll →
      ll.discount_amount_usd =
        round2 (c2wCalc.discount_amount - sumBy (·.discount_amount_usd) c2wCalc.lines.dropLast) ∧
      ll.tax_amount_usd =
        round2 (c2wCalc.tax_amount - sumBy (·.tax_amount_usd) c2wCalc.lines.dropLast) ∧
      ll.total_usd =
        round2 (c2wCalc.total - sumBy (·.total_usd) c2wCalc.lines.dropLast)) :=
  line_pricer_proration_formulas (show
    buildInvoiceLines {} [(productA, 1), (productB, 1)] 10 = .ok c2wCalc by
      have hs : (("none" : String) = "nearest_integer") = False := eq_false (by decide)
      norm_num [buildInvoiceLines, collectLineSubtotals, prorateLines, productA,
        productB, c2wCalc, c2wLine1, c2wLine2, exceptOk_bind, round2, roundHalfEven,
        -Int.self_sub_floor, hs])

/-! ## Manual Total Override: `apply_manual_total_override` (`sales.py:169-192`) -/

/-- Re-proration loop of `apply_manual_total_override` (`sales.py:182-189`):
every line except the last gets `round(manual_total * ratio, 2)` where
`ratio = line_total / base_sum` (equal split `1 / line_count` if `base_sum`
is not positive); the last line gets the manual total minus the running
distributed sum.  Only `total_usd` is replaced. -/
def overrideLines (m base : ℚ) (n : ℕ) : List Line → ℚ → List Line
  | [], _ => []
  | [l], dtot => [{ l with total_usd := round2 (m - dtot) }]
  | l :: l₂ :: rest, dtot =>
    let ratio := if 0 < base then l.total_usd / base else 1 / (n : ℚ)
    let lt := round2 (m * ratio)
    { l with total_usd := lt } :: overrideLines m base n (l₂ :: rest) (dtot + lt)

/-- `apply_manual_total_override` (`sales.py:169-192`): round the manual
total to cents, reject non-positive values and empty line lists, then
re-prorate the line totals onto the manual total with
`base_sum = round(sum of pre-override line totals, 2)`, replacing the
calc's invoice-level total and returning the previous computed total. -/
def applyManualTotalOverride (c : Calc) (manual_invoice_total : ℚ) :
    Except Err (Calc × ℚ) :=
  let manual_total := round2 manual_invoice_total
  if manual_total ≤ 0 then .error .invalidManualTotal
  else if c.lines = [] then .error .emptyLines
  else
    let original_total := round2 c.total
    let base_sum := round2 (sumBy (·.total_usd) c.lines)
    .ok ({ c with
            total := manual_total
            lines := overrideLines manual_total base_sum c.lines.length
              c.lines 0 },
         original_total)

theorem overrideLines_length (m base : ℚ) (n : ℕ) :
    ∀ (lines : List Line) (dtot : ℚ),
      (overrideLines m base n lines dtot).length = lines.length := by
  intro lines
  induction lines with
  | nil => intro dtot; rfl
  | cons hd tl ih =>
    intro dtot
    cases tl with
    | nil => rfl
    | cons b l => simp only [overrideLines, List.length_cons, ih]

theorem overrideLines_sums (m base : ℚ) (n : ℕ) (hm : IsCent m) :
    ∀ (lines : List Line), lines ≠ [] → ∀ (dtot : ℚ), IsCent dtot →
      sumBy (·.total_usd) (overrideLines m base n lines dtot) = m - dtot := by
  intro lines
  induction lines with
  | nil => intro h; exact absurd rfl h
  | cons hd tl ih =>
    intro _ dtot hdtot
    cases tl with
    | nil =>
      simp only [overrideLines, sumBy_cons, sumBy_nil]
      rw [(hm.sub hdtot).round2_eq]
      ring
    | cons b l =>
      simp only [overrideLines, sumBy_cons]
      rw [ih (by simp) _ (hdtot.add (isCent_round2 _))]
      ring

theorem overrideLines_frame (m base : ℚ) (n : ℕ) :
    ∀ (lines : List Line) (dtot : ℚ),
      List.Forall₂ (fun l l' => l'.product = l.product ∧ l'.quantity = l.quantity ∧
        l'.unit_price_usd = l.unit_price_usd ∧ l'.subtotal_usd = l.subtotal_usd ∧
        l'.discount_amount_usd = l.discount_amount_usd ∧ l'.tax_pct = l.tax_pct ∧
        l'.tax_amount_usd = l.tax_amount_usd) lines
        (overrideLines m base n lines dtot) := by
  intro lines
  induction lines with
  | nil => intro dtot; exact List.Forall₂.nil
  | cons hd tl ih =>
    intro dtot
    cases tl with
    | nil =>
      exact List.Forall₂.cons ⟨rfl, rfl, rfl, rfl, rfl, rfl, rfl⟩ List.Forall₂.nil
    | cons b l =>
      exact List.Forall₂.cons ⟨rfl, rfl, rfl, rfl, rfl, rfl, rfl⟩ (ih _)

theorem overrideLines_get (m base : ℚ) (n : ℕ) :
    ∀ (lines : List Line) (dtot : ℚ) (i : ℕ) (li li' : Line),
      i + 1 < lines.length → lines[i]? = some li →
      (overrideLines m base n lines dtot)[i]? = some li' →
      li'.total_usd =
        round2 (m * (if 0 < base then li.total_usd / base else 1 / (n : ℚ))) := by
  intro lines
  induction lines with
  | nil => intro dtot i li li' hlen; simp at hlen
  | cons hd tl ih =>
    intro dtot i li li' hlen hin hout
    cases tl with
    | nil => simp at hlen
    | cons b l =>
      rw [overrideLines] at hout
      cases i with
      | zero =>
        simp only [List.getElem?_cons_zero, Option.some.injEq] at hin hout
        subst hin
        subst hout
        rfl
      | succ j =>
        simp only [List.getElem?_cons_succ] at hin hout
        simp only [List.length_cons] at hlen
        exact ih _ j li li' (by simp only [List.length_cons]; omega) hin hout

theorem overrideLines_getLast (m base : ℚ) (n : ℕ) :
    ∀ (lines : List Line) (dtot : ℚ) (ll : Line),
      (overrideLines m base n lines dtot).getLast? = some ll →
      ll.total_usd = round2 (m - (dtot +
        sumBy (·.total_usd) (overrideLines m base n lines dtot).dropLast)) := by
  intro lines
  induction lines with
  | nil => intro dtot ll hget; simp [overrideLines] at hget
  | cons hd tl ih =>
    intro dtot ll hget
    cases tl with
    | nil =>
      simp only [overrideLines, List.getLast?_singleton, Option.some.injEq] at hget
      subst hget
      simp [overrideLines, sumBy_nil]
    | cons b l =>
      rw [overrideLines] at hget ⊢
      have hne : overrideLines m base n (b :: l)
          (dtot + round2 (m * if 0 < base then hd.total_usd / base else 1 / (n : ℚ))) ≠ [] := by
        intro hc
        have := overrideLines_length m base n (b :: l)
          (dtot + round2 (m * if 0 < base then hd.total_usd / base else 1 / (n : ℚ)))
        rw [hc] at this
        simp at this
      obtain ⟨y, ys, hys⟩ := List.exists_cons_of_ne_nil hne
      rw [hys, List.getLast?_cons_cons] at hget
      have ihl := ih _ ll (by rw [hys]; exact hget)
      rw [hys] at ihl ⊢
      rw [List.dropLast_cons₂, sumBy_cons]
      rw [ihl]
      ring_nf

theorem applyManualTotalOverride_ok {c : Calc} {m : ℚ} {out : Calc} {orig : ℚ}
    (h : applyManualTotalOverride c m = .ok (out, orig)) :
    ¬ round2 m ≤ 0 ∧ c.lines ≠ [] ∧
    out = { c with
            total := round2 m
            lines := overrideLines (round2 m) (round2 (sumBy (·.total_usd) c.lines))
              c.lines.length c.lines 0 } ∧
    orig = round2 c.total := by
  simp only [applyManualTotalOverride] at h
  split at h
  · exact absurd h (by simp)
  · split at h
    · exact absurd h (by simp)
    · rename_i h1 h2
      have hp := Except.ok.inj h
      have ho := congrArg Prod.fst hp
      have hr := congrArg Prod.snd hp
      simp only at ho hr
      exact ⟨h1, h2, ho.symm, hr.symm⟩

/-- **C3 (amended).**  For a calc with at least one line: every manual total
that is a positive whole number of cents is applied exactly — the overridden
line totals sum exactly to it, the invoice-level total is replaced by it,
`original_total` returns the pre-override computed total (a whole number of
cents for every calc produced by the pricer), the rounding residual goes to
the last line and an equal-split ratio `1/line_count` is used when the
pre-override line-total sum is not positive; any manual total ≤ 0 is
rejected with a validation error (as is any positive input that rounds to
≤ 0 cents, e.g. 0.004). -/
theorem manual_override_sums_exact (c : Calc) (m : ℚ)
    (hne : c.lines ≠ []) (htot : IsCent c.total) :
    (IsCent m → 0 < m →
      ∃ out orig, applyManualTotalOverride c m = .ok (out, orig) ∧
        sumBy (·.total_usd) out.lines = m ∧
        out.total = m ∧
        orig = c.total ∧
        (∀ ll, out.lines.getLast? = some ll →
          ll.total_usd = round2 (m - sumBy (·.total_usd) out.lines.dropLast)) ∧
        (∀ i li li', i + 1 < c.lines.length → c.lines[i]? = some li →
          out.lines[i]? = some li' →
          li'.total_usd = round2 (m *
            (if 0 < round2 (sumBy (·.total_usd) c.lines)
             then li.total_usd / round2 (sumBy (·.total_usd) c.lines)
             else 1 / (c.lines.length : ℚ))))) ∧
    (m ≤ 0 → applyManualTotalOverride c m = .error .invalidManualTotal) := by
  constructor
  · intro hm hpos
    have hmt : round2 m = m := hm.round2_eq
    have h1 : ¬ round2 m ≤ 0 := by rw [hmt]; exact not_le.mpr hpos
    have happ : applyManualTotalOverride c m = .ok
        ({ c with
            total := round2 m
            lines := overrideLines (round2 m) (round2 (sumBy (·.total_usd) c.lines))
              c.lines.length c.lines 0 },
         round2 c.total) := by
      simp only [applyManualTotalOverride, if_neg h1, if_neg hne]
    refine ⟨_, _, happ, ?_, ?_, ?_, ?_, ?_⟩
    · show sumBy (·.total_usd) (overrideLines (round2 m)
        (round2 (sumBy (·.total_usd) c.lines)) c.lines.length c.lines 0) = m
      rw [overrideLines_sums (round2 m) _ _ (isCent_round2 m) c.lines hne 0 isCent_zero,
        hmt, sub_zero]
    · show round2 m = m
      exact hmt
    · show round2 c.total = c.total
      exact htot.round2_eq
    · intro ll hg
      dsimp only at hg ⊢
      have := overrideLines_getLast (round2 m)
        (round2 (sumBy (·.total_usd) c.lines)) c.lines.length c.lines 0 ll hg
      rw [zero_add] at this
      nth_rewrite 1 [hmt] at this
      exact this
    · intro i li li' hl hin hout
      dsimp only at hout
      have := overrideLines_get (round2 m) (round2 (sumBy (·.total_usd) c.lines))
        c.lines.length c.lines 0 i li li' hl hin hout
      rw [hmt] at this
      exact this
  · intro hle
    simp only [applyManualTotalOverride, if_pos (round2_nonpos hle)]

/-- **C3 (counterexample).**  The manual total 0.004 is strictly positive but
`apply_manual_total_override` rejects it, because the code first rounds the
manual total to cents (0.004 → 0.00 ≤ 0). -/
theorem manual_override_positive_rejected_counterexample :
    (0 : ℚ) < 1/250 ∧
    applyManualTotalOverride c2wCalc (1/250) = .error .invalidManualTotal := by
  constructor
  · norm_num
  · have hr : round2 (1/250) ≤ 0 := by
      norm_num [round2, roundHalfEven, -Int.self_sub_floor]
    simp only [applyManualTotalOverride, if_pos hr]

/-- Witness for the amended C3: manual total 100 on the spec's worked example
(line totals 90/45 re-prorate to 66.67/33.33, original total 135). -/
theorem manual_override_sums_exact_witness :
    (IsCent 100 → (0:ℚ) < 100 →
      ∃ out orig, applyManualTotalOverride c2wCalc 100 = .ok (out, orig) ∧
        sumBy (·.total_usd) out.lines = 100 ∧
        out.total = 100 ∧
        orig = c2wCalc.total ∧
        (∀ ll, out.lines.getLast? = some ll →
          ll.total_usd = round2 (100 - sumBy (·.total_usd) out.lines.dropLast)) ∧
        (∀ i li li', i + 1 < c2wCalc.lines.length → c2wCalc.lines[i]? = some li →
          out.lines[i]? = some li' →
          li'.total_usd = round2 (100 *
            (if 0 < round2 (sumBy (·.total_usd) c2wCalc.lines)
             then li.total_usd / round2 (sumBy (·.total_usd) c2wCalc.lines)
             else 1 / (c2wCalc.lines.length : ℚ))))) ∧
    ((100:ℚ) ≤ 0 → applyManualTotalOverride c2wCalc 100 = .error .invalidManualTotal) :=
  manual_override_sums_exact c2wCalc 100 (by simp [c2wCalc]) ⟨13500, by norm_num [c2wCalc]⟩

/-- **C4.**  The manual override changes only the per-line `total_usd`
values and the invoice-level `total`: every other calc aggregate and every
other field of every line is unchanged, and the line count and order are
preserved. -/
theorem manual_override_frame {c : Calc} {m : ℚ} {out : Calc} {orig : ℚ}
    (h : applyManualTotalOverride c m = .ok (out, orig)) :
    out.discount_pct = c.discount_pct ∧ out.subtotal = c.subtotal ∧
    out.discount_amount = c.discount_amount ∧ out.tax_pct = c.tax_pct ∧
    out.tax_amount = c.tax_amount ∧
    List.Forall₂ (fun l l' => l'.product = l.product ∧ l'.quantity = l.quantity ∧
      l'.unit_price_usd = l.unit_price_usd ∧ l'.subtotal_usd = l.subtotal_usd ∧
      l'.discount_amount_usd = l.discount_amount_usd ∧ l'.tax_pct = l.tax_pct ∧
      l'.tax_amount_usd = l.tax_amount_usd) c.lines out.lines := by
  obtain ⟨-, -, rfl, -⟩ := applyManualTotalOverride_ok h
  exact ⟨rfl, rfl, rfl, rfl, rfl, overrideLines_frame _ _ _ _ _⟩

/-- The override result for `c2wCalc` with manual total 100. -/
def c4wOut : Calc :=
  { discount_pct := 10, subtotal := 150, discount_amount := 15, tax_pct := 0,
    tax_amount := 0, total := 100,
    lines := [{ c2wLine1 with total_usd := 6667/100 },
              { c2wLine2 with total_usd := 3333/100 }] }

/-- Witness for C4: the same concrete override (manual total 100 on the
worked example) only rewrites the line totals. -/
theorem manual_override_frame_witness :
    c4wOut.discount_pct = c2wCalc.discount_pct ∧ c4wOut.subtotal = c2wCalc.subtotal ∧
    c4wOut.discount_amount = c2wCalc.discount_amount ∧
    c4wOut.tax_pct = c2wCalc.tax_pct ∧
    c4wOut.tax_amount = c2wCalc.tax_amount ∧
    List.Forall₂ (fun l l' => l'.product = l.product ∧ l'.quantity = l.quantity ∧
      l'.unit_price_usd = l.unit_price_usd ∧ l'.subtotal_usd = l.subtotal_usd ∧
      l'.discount_amount_usd = l.discount_amount_usd ∧ l'.tax_pct = l.tax_pct ∧
      l'.tax_amount_usd = l.tax_amount_usd) c2wCalc.lines c4wOut.lines :=
  manual_override_frame (show applyManualTotalOverride c2wCalc 100 = .ok (c4wOut, 135) by
    norm_num [applyManualTotalOverride, overrideLines, c2wCalc, c2wLine1, c2wLine2,
      c4wOut, sumBy, round2, roundHalfEven, -Int.self_sub_floor]
    exact fun h => absurd h (List.cons_ne_nil _ _))

/-! ## Commission/Profit Allocator: `calculate_commissions_for_lines`
(`sales.py:195-233`) -/

/-- One enriched dict produced by `calculate_commissions_for_lines`
(`sales.py:223-230`). -/
structure CommissionLine where
  amount_paid_line_usd : ℚ
  cost_line_usd : ℚ
  profit_line_usd : ℚ
  commission_line_usd : ℚ
deriving DecidableEq, Repr

/-- Loop of `calculate_commissions_for_lines` (`sales.py:202-230`): prorate
the USD payment over the lines by their share of the invoice list total
(last line takes the remainder), then per line compute cost, profit and
`commission = round(max(0, profit) * rate, 2)` (the last line clamps the
commission a second time, `sales.py:217-219`). -/
def commissionLines (P rate IT : ℚ) : List Line → ℚ → List CommissionLine
  | [], _ => []
  | [l], dp =>
    let amount_paid_line := round2 (P - dp)
    let cost_line := round2 (l.product.cost_amount * (l.quantity : ℚ))
    let profit_line := round2 (amount_paid_line - cost_line)
    let commission_line := round2 (max 0 profit_line * rate)
    [{ amount_paid_line_usd := amount_paid_line, cost_line_usd := cost_line,
       profit_line_usd := profit_line,
       commission_line_usd := round2 (max 0 commission_line) }]
  | l :: l₂ :: rest, dp =>
    let line_total := round2 l.total_usd
    let ratio := if 0 < IT then line_total / IT else 0
    let amount_paid_line := round2 (P * ratio)
    let cost_line := round2 (l.product.cost_amount * (l.quantity : ℚ))
    let profit_line := round2 (amount_paid_line - cost_line)
    let commission_line := round2 (max 0 profit_line * rate)
    { amount_paid_line_usd := amount_paid_line, cost_line_usd := cost_line,
      profit_line_usd := profit_line, commission_line_usd := commission_line } ::
      commissionLines P rate IT (l₂ :: rest) (dp + amount_paid_line)

/-- `calculate_commissions_for_lines` (`sales.py:195-233`). -/
def calculateCommissionsForLines (lines : List Line)
    (payment_amount_usd commission_pct : ℚ) : List CommissionLine × ℚ :=
  let payment_usd := round2 payment_amount_usd
  let commission_rate := max 0 commission_pct / 100
  let invoice_total := round2 (sumBy (·.total_usd) lines)
  let enriched := commissionLines payment_usd commission_rate invoice_total lines 0
  (enriched, round2 ((enriched.map (·.commission_line_usd)).sum))

theorem commissionLines_length (P rate IT : ℚ) :
    ∀ (lines : List Line) (dp : ℚ),
      (commissionLines P rate IT lines dp).length = lines.length := by
  intro lines
  induction lines with
  | nil => intro dp; rfl
  | cons hd tl ih =>
    intro dp
    cases tl with
    | nil => rfl
    | cons b l => simp only [commissionLines, List.length_cons, ih]

theorem commissionLines_each (P rate IT : ℚ) (hrate : 0 ≤ rate) :
    ∀ (lines : List Line) (dp : ℚ),
      ∀ e ∈ commissionLines P rate IT lines dp,
        0 ≤ e.commission_line_usd ∧
        (e.profit_line_usd ≤ 0 → e.commission_line_usd = 0) ∧
        IsCent e.commission_line_usd ∧ IsCent e.amount_paid_line_usd := by
  intro lines
  induction lines with
  | nil => intro dp e he; simp [commissionLines] at he
  | cons hd tl ih =>
    intro dp e he
    cases tl with
    | nil =>
      simp only [commissionLines, List.mem_singleton] at he
      subst he
      refine ⟨round2_nonneg (le_max_left 0 _), ?_, isCent_round2 _, isCent_round2 _⟩
      intro hp
      simp only
      rw [max_eq_left hp, zero_mul, round2_zero, max_self, round2_zero]
    | cons b l =>
      rw [commissionLines] at he
      rcases List.mem_cons.mp he with rfl | hmem
      · refine ⟨round2_nonneg ?_, ?_, isCent_round2 _, isCent_round2 _⟩
        · exact mul_nonneg (le_max_left 0 _) hrate
        · intro hp
          simp only at hp ⊢
          rw [max_eq_left hp, zero_mul, round2_zero]
      · exact ih _ e hmem

theorem commissionLines_paid_sums (P rate IT : ℚ) (hP : IsCent P) :
    ∀ (lines : List Line), lines ≠ [] → ∀ (dp : ℚ), IsCent dp →
      ((commissionLines P rate IT lines dp).map (·.amount_paid_line_usd)).sum
        = P - dp := by
  intro lines
  induction lines with
  | nil => intro h; exact absurd rfl h
  | cons hd tl ih =>
    intro _ dp hdp
    cases tl with
    | nil =>
      simp only [commissionLines, List.map_cons, List.map_nil, List.sum_cons,
        List.sum_nil, add_zero]
      rw [(hP.sub hdp).round2_eq]
    | cons b l =>
      simp only [commissionLines, List.map_cons, List.sum_cons]
      rw [ih (by simp) _ (hdp.add (isCent_round2 _))]
      ring

theorem commissionLines_get (P rate IT : ℚ) :
    ∀ (lines : List Line) (dp : ℚ) (i : ℕ) (li : Line) (e : CommissionLine),
      i + 1 < lines.length → lines[i]? = some li →
      (commissionLines P rate IT lines dp)[i]? = some e →
      e.amount_paid_line_usd =
        round2 (P * (if 0 < IT then round2 li.total_usd / IT else 0)) := by
  intro lines
  induction lines with
  | nil => intro dp i li e hlen; simp at hlen
  | cons hd tl ih =>
    intro dp i li e hlen hin hout
    cases tl with
    | nil => simp at hlen
    | cons b l =>
      rw [commissionLines] at hout
      cases i with
      | zero =>
        simp only [List.getElem?_cons_zero, Option.some.injEq] at hin hout
        subst hin
        subst hout
        rfl
      | succ j =>
        simp only [List.getElem?_cons_succ] at hin hout
        simp only [List.length_cons] at hlen
        exact ih _ j li e (by simp only [List.length_cons]; omega) hin hout

theorem commissionLines_getLast (P rate IT : ℚ) :
    ∀ (lines : List Line) (dp : ℚ) (ll : CommissionLine),
      (commissionLines P rate IT lines dp).getLast? = some ll →
      ll.amount_paid_line_usd = round2 (P - (dp +
        (((commissionLines P rate IT lines dp).dropLast.map
          (·.amount_paid_line_usd)).sum))) := by
  intro lines
  induction lines with
  | nil => intro dp ll hget; simp [commissionLines] at hget
  | cons hd tl ih =>
    intro dp ll hget
    cases tl with
    | nil =>
      simp only [commissionLines, List.getLast?_singleton, Option.some.injEq] at hget
      subst hget
      simp [commissionLines]
    | cons b l =>
      rw [commissionLines] at hget ⊢
      have hne : commissionLines P rate IT (b :: l)
          (dp + round2 (P * if 0 < IT then round2 hd.total_usd / IT else 0)) ≠ [] := by
        intro hc
        have := commissionLines_length P rate IT (b :: l)
          (dp + round2 (P * if 0 < IT then round2 hd.total_usd / IT else 0))
        rw [hc] at this
        simp at this
      obtain ⟨y, ys, hys⟩ := List.exists_cons_of_ne_nil hne
      rw [hys, List.getLast?_cons_cons] at hget
      have ihl := ih _ ll (by rw [hys]; exact hget)
      rw [hys] at ihl ⊢
      rw [List.dropLast_cons₂, List.map_cons, List.sum_cons]
      rw [ihl]
      ring_nf

/-- **C5 (amended).**  For every non-empty line list, whole-cent USD payment
and commission percentage: every per-line commission is ≥ 0 and is 0 whenever
that line's profit (paid amount minus cost) is ≤ 0; the invoice commission
total is exactly the sum of the per-line commissions; the per-line paid
amounts sum exactly to the payment, prorated by each line's share of the
invoice list total with the last line receiving the remainder.  (On an empty
line list the paid amounts sum to 0, not to the payment.) -/
theorem commission_allocator_spec (lines : List Line)
    (payment_amount_usd commission_pct : ℚ)
    (hne : lines ≠ []) (hp : IsCent payment_amount_usd) :
    (∀ e ∈ (calculateCommissionsForLines lines payment_amount_usd commission_pct).1,
        0 ≤ e.commission_line_usd ∧
        (e.profit_line_usd ≤ 0 → e.commission_line_usd = 0)) ∧
    (calculateCommissionsForLines lines payment_amount_usd commission_pct).2 =
      ((calculateCommissionsForLines lines payment_amount_usd commission_pct).1.map
        (·.commission_line_usd)).sum ∧
    ((calculateCommissionsForLines lines payment_amount_usd commission_pct).1.map
      (·.amount_paid_line_usd)).sum = payment_amount_usd ∧
    (∀ i li e, i + 1 < lines.length → lines[i]? = some li →
      (calculateCommissionsForLines lines payment_amount_usd commission_pct).1[i]?
        = some e →
      e.amount_paid_line_usd = round2 (payment_amount_usd *
        (if 0 < round2 (sumBy (·.total_usd) lines)
         then round2 li.total_usd / round2 (sumBy (·.total_usd) lines) else 0))) ∧
    (∀ ll, (calculateCommissionsForLines lines
        payment_amount_usd commission_pct).1.getLast? = some ll →
      ll.amount_paid_line_usd = round2 (payment_amount_usd -
        ((calculateCommissionsForLines lines
          payment_amount_usd commission_pct).1.dropLast.map
            (·.amount_paid_line_usd)).sum)) := by
  have hrate : (0 : ℚ) ≤ max 0 commission_pct / 100 := by positivity
  have hPm : round2 payment_amount_usd = payment_amount_usd := hp.round2_eq
  refine ⟨?_, ?_, ?_, ?_, ?_⟩
  · intro e he
    dsimp only [calculateCommissionsForLines] at he
    obtain ⟨h1, h2, -, -⟩ := commissionLines_each _ _ _ hrate lines 0 e he
    exact ⟨h1, h2⟩
  · dsimp only [calculateCommissionsForLines]
    apply IsCent.round2_eq
    apply isCent_listSum
    intro x hx
    obtain ⟨e, he, rfl⟩ := List.mem_map.mp hx
    exact (commissionLines_each _ _ _ hrate lines 0 e he).2.2.1
  · dsimp only [calculateCommissionsForLines]
    rw [commissionLines_paid_sums _ _ _ (isCent_round2 _) lines hne 0 isCent_zero,
      sub_zero, hPm]
  · intro i li e hlen hin hout
    dsimp only [calculateCommissionsForLines] at hout
    have := commissionLines_get _ _ _ lines 0 i li e hlen hin hout
    rw [hPm] at this
    exact this
  · intro ll hget
    dsimp only [calculateCommissionsForLines] at hget ⊢
    have := commissionLines_getLast _ _ _ lines 0 ll hget
    rw [zero_add] at this
    nth_rewrite 1 [hPm] at this
    exact this

/-- **C5 (counterexample).**  On the empty line list with payment 5 the
enrichment is empty, so the per-line paid amounts sum to 0, not to the
payment — the claim fails for the empty list. -/
theorem commission_empty_lines_counterexample :
    calculateCommissionsForLines [] 5 10 = ([], 0) ∧
    (((calculateCommissionsForLines [] 5 10).1.map (·.amount_paid_line_usd)).sum
      = 0) ∧
    (0 : ℚ) ≠ 5 := by
  refine ⟨?_, ?_, by norm_num⟩ <;>
    norm_num [calculateCommissionsForLines, commissionLines, sumBy, round2,
      roundHalfEven, -Int.self_sub_floor]

/-- Witness for the amended C5: the worked example's two lines (totals 90/45),
payment 135 USD, commission 7%. -/
theorem commission_allocator_spec_witness :
    (∀ e ∈ (calculateCommissionsForLines [c2wLine1, c2wLine2] 135 7).1,
        0 ≤ e.commission_line_usd ∧
        (e.profit_line_usd ≤ 0 → e.commission_line_usd = 0)) ∧
    (calculateCommissionsForLines [c2wLine1, c2wLine2] 135 7).2 =
      ((calculateCommissionsForLines [c2wLine1, c2wLine2] 135 7).1.map
        (·.commission_line_usd)).sum ∧
    ((calculateCommissionsForLines [c2wLine1, c2wLine2] 135 7).1.map
      (·.amount_paid_line_usd)).sum = 135 ∧
    (∀ i li e, i + 1 < ([c2wLine1, c2wLine2] : List Line).length →
      ([c2wLine1, c2wLine2] : List Line)[i]? = some li →
      (calculateCommissionsForLines [c2wLine1, c2wLine2] 135 7).1[i]? = some e →
      e.amount_paid_line_usd = round2 ((135 : ℚ) *
        (if 0 < round2 (sumBy (·.total_usd) [c2wLine1, c2wLine2])
         then round2 li.total_usd / round2 (sumBy (·.total_usd) [c2wLine1, c2wLine2])
         else 0))) ∧
    (∀ ll, (calculateCommissionsForLines
        [c2wLine1, c2wLine2] 135 7).1.getLast? = some ll →
      ll.amount_paid_line_usd = round2 ((135 : ℚ) -
        ((calculateCommissionsForLines [c2wLine1, c2wLine2] 135 7).1.dropLast.map
          (·.amount_paid_line_usd)).sum)) :=
  commission_allocator_spec [c2wLine1, c2wLine2] 135 7 (by simp)
    ⟨13500, by norm_num⟩

/-! ## Invoice Lifecycle Manager: `create_sale` (`sales.py:465-657`) and
`void_invoices` (`sales.py:660-727`) -/

/-- Python `str.strip()` modelled structurally on the character list. -/
def pyStrip (s : String) : String :=
  ⟨((s.data.dropWhile Char.isWhitespace).reverse.dropWhile Char.isWhitespace).reverse⟩

/-- Python `str.upper()` modelled structurally on the character list. -/
def pyUpper (s : String) : String := ⟨s.data.map Char.toUpper⟩

/-- Python `s or default` for strings (the empty string is falsy). -/
def pyOr (s d : String) : String := if s = "" then d else s

/-- `User` row, restricted to the fields the sales routes read. -/
structure UserRec where
  id : ℕ
  full_name : String := ""
  email : String := ""
  is_active : Bool := true
deriving DecidableEq, Repr

/-- `Sale` row (`app/models/sale.py`). -/
structure SaleRow where
  invoice_code : String
  product_id : ℕ
  quantity : ℤ
  currency_code : String := "USD"
  unit_price_usd : ℚ := 0
  subtotal_usd : ℚ := 0
  discount_pct : ℚ := 0
  discount_amount_usd : ℚ := 0
  tax_pct : ℚ := 0
  tax_amount_usd : ℚ := 0
  total_usd : ℚ := 0
  customer_name : String := ""
  customer_phone : String := ""
  customer_address : String := ""
  customer_rif : String := ""
  seller_user_id : Option ℕ := none
  sale_date : Option ℤ := none
  payment_currency_code : String := "USD"
  payment_amount : Option ℚ := none
  payment_rate_to_usd : Option ℚ := none
  payment_amount_usd : Option ℚ := none
  manual_total_override : Bool := false
  manual_total_input_usd : Option ℚ := none
  manual_total_original_usd : Option ℚ := none
  manual_total_set_by : Option ℕ := none
  manual_total_set_at : Option ℤ := none
  commission_pct : ℚ := 0
  commission_amount_usd : ℚ := 0
  is_voided : Bool := false
  voided_at : Option ℤ := none
  voided_by : Option ℕ := none
  void_reason : String := ""
  created_by : ℕ := 0
  created_at : ℤ := 0
deriving DecidableEq, Repr

/-- `InventoryMovement` row (`app/models/inventory.py`): immutable
append-only ledger entry. -/
structure InventoryMovement where
  product_id : ℕ
  movement_type : String
  quantity : ℤ
  note : String := ""
  created_by : ℕ := 0
deriving DecidableEq, Repr

/-- The database tables the sales routes read and write; one request is one
transaction over this state. -/
structure DBState where
  products : List Product
  sales : List SaleRow
  movements : List InventoryMovement
deriving DecidableEq, Repr

/-- Read-only request context: resolved settings, the currency-rate table,
the user directory, the authenticated user with its RBAC flags
(`is_admin_user`, `can_assign_other_seller`), the clock and the generated
invoice code. -/
structure Ctx where
  settings : Settings
  rates : List (String × ℚ)
  users : List UserRec
  current_user : UserRec
  is_admin : Bool
  can_assign_other : Bool
  now : ℤ
  invoice_code : String
deriving Repr

/-- `SaleLineRequest` (`app/schemas/sales.py`). -/
structure SaleLineRequest where
  product_id : ℕ
  quantity : ℤ
deriving DecidableEq, Repr

/-- `SaleCreateRequest` (`app/schemas/sales.py`), with its schema defaults.
Timestamps are modelled as integers (seconds). -/
structure SaleCreateRequest where
  customer_name : String := ""
  customer_phone : String := ""
  customer_address : String := ""
  customer_rif : String := ""
  currency_code : String := "USD"
  discount_pct : Option ℚ := none
  seller_user_id : Option ℕ := none
  sale_date : Option ℤ := none
  payment_currency_code : String := "USD"
  payment_amount : Option ℚ := none
  manual_invoice_total : Option ℚ := none
  confirm_possible_duplicate : Bool := false
  items : List SaleLineRequest
deriving Repr

def findProduct (ps : List Product) (pid : ℕ) : Option Product :=
  ps.find? (fun p => p.id == pid)

def lookupRate (rates : List (String × ℚ)) (code : String) : Option ℚ :=
  (rates.find? (fun r => r.1 == code)).map (·.2)

/-- Mutating `product.stock` on the session: add `delta` to the stock of the
product with id `pid`. -/
def applyStockDelta (ps : List Product) (pid : ℕ) (delta : ℤ) : List Product :=
  ps.map (fun p => if p.id = pid then { p with stock := p.stock + delta } else p)

/-- Validation loop of `create_sale` (`sales.py:487-502`): look up each
product, reject missing products, non-positive quantities and insufficient
stock, and accumulate the validated items and the raw (unrounded) subtotal. -/
def validateItems (ps : List Product) :
    List SaleLineRequest → Except Err (List (Product × ℤ) × ℚ)
  | [] => .ok ([], 0)
  | item :: rest =>
    match findProduct ps item.product_id with
    | none => .error (.productNotFound item.product_id)
    | some product =>
      if item.quantity ≤ 0 then .error .invalidQuantity
      else if product.stock < item.quantity then .error (.insufficientStock product.sku)
      else do
        let (tail, raw) ← validateItems ps rest
        .ok ((product, item.quantity) :: tail,
          (item.quantity : ℚ) * product.final_customer_price + raw)

/-- `resolve_seller` (`sales.py:66-79`). -/
def resolveSeller (ctx : Ctx) (seller_user_id : Option ℕ) : Except Err UserRec :=
  let resolved := seller_user_id.getD ctx.current_user.id
  if resolved ≠ ctx.current_user.id ∧ ctx.can_assign_other = false then
    .error .forbiddenSeller
  else
    match ctx.users.find? (fun u => u.id == resolved) with
    | none => .error .invalidSeller
    | some seller => if seller.is_active then .ok seller else .error .invalidSeller

/-- `resolve_payment` (`sales.py:82-99`): default the payment to the invoice
total converted at the current rate, reject non-positive amounts, and convert
the paid amount back to USD. -/
def resolvePayment (rates : List (String × ℚ)) (payment_currency_code : String)
    (payment_amount : Option ℚ) (invoice_total : ℚ) :
    Except Err (String × ℚ × ℚ × ℚ) :=
  let payment_currency := pyUpper (pyOr payment_currency_code "USD")
  match lookupRate rates payment_currency with
  | none => .error .invalidPaymentCurrency
  | some rate =>
    let resolved := payment_amount.getD (round2 (invoice_total * rate))
    if resolved ≤ 0 then .error .invalidPaymentAmount
    else .ok (payment_currency, resolved, rate, round2 (resolved / rate))

/-- `COALESCE(sale_date, created_at)` used by the duplicate query. -/
def rowDate (r : SaleRow) : ℤ := r.sale_date.getD r.created_at

/-- One row of the duplicate-invoice query result (`sales.py:527-540`):
grouped by invoice code with max date, max customer name and summed total. -/
structure DuplicateCandidate where
  invoice_code : String
  sale_date : ℤ
  customer_name : String
  invoice_total : ℚ
deriving DecidableEq, Repr

/-- `dict.fromkeys`-style deduplication keeping first occurrences in order. -/
def dedupFirst : List String → List String
  | [] => []
  | x :: xs => x :: (dedupFirst xs).filter (fun y => y != x)

def insertByDateDesc (c : DuplicateCandidate) :
    List DuplicateCandidate → List DuplicateCandidate
  | [] => [c]
  | d :: rest =>
    if d.sale_date < c.sale_date then c :: d :: rest
    else d :: insertByDateDesc c rest

/-- `ORDER BY max(date) DESC` of the duplicate query. -/
def sortByDateDesc : List DuplicateCandidate → List DuplicateCandidate
  | [] => []
  | c :: rest => insertByDateDesc c (sortByDateDesc rest)

/-- The duplicate-invoice query of `create_sale` (`sales.py:526-540`):
non-voided sales of the last 24 hours, grouped by invoice code, keeping the
groups whose summed total is within 0.01 of the new invoice total, newest
first, limited to 8. -/
def duplicateCandidates (sales : List SaleRow) (invoice_total : ℚ) (now : ℤ) :
    List DuplicateCandidate :=
  let window_start := now - 86400
  let rows := sales.filter (fun r => !r.is_voided && decide (window_start ≤ rowDate r))
  let codes := dedupFirst (rows.map (·.invoice_code))
  let groups := codes.map (fun code =>
    let g := rows.filter (fun r => r.invoice_code == code)
    { invoice_code := code
      sale_date := ((g.map rowDate).max?).getD 0
      customer_name := ((g.map (·.customer_name)).max?).getD ""
      invoice_total := (g.map (·.total_usd)).sum : DuplicateCandidate })
  let matching := groups.filter (fun c => decide (|c.invoice_total - invoice_total| ≤ 1/100))
  (sortByDateDesc matching).take 8

/-- The manual-override bookkeeping fields of `create_sale`
(`sales.py:507-518`). -/
structure ManualInfo where
  manual_total_override : Bool := false
  manual_total_input_usd : Option ℚ := none
  manual_total_original_usd : Option ℚ := none
  manual_total_set_by : Option ℕ := none
  manual_total_set_at : Option ℤ := none
deriving DecidableEq, Repr

/-- `sales.py:512-518`: apply the manual override when requested and record
who set it and when. -/
def applyManual (ctx : Ctx) (c : Calc) : Option ℚ → Except Err (Calc × ManualInfo)
  | none => .ok (c, {})
  | some m => do
    let (c2, original_total) ← applyManualTotalOverride c m
    .ok (c2, { manual_total_override := true
               manual_total_input_usd := some (round2 m)
               manual_total_original_usd := some original_total
               manual_total_set_by := some ctx.current_user.id
               manual_total_set_at := some ctx.now })

/-- The JSON body returned by a successful `create_sale` (`sales.py:633-657`). -/
structure SaleResponse where
  invoice_code : String
  currency_code : String
  seller_user_id : ℕ
  seller_name : String
  sale_date : ℤ
  subtotal : ℚ
  discount_pct : ℚ
  discount_amount : ℚ
  tax_pct : ℚ
  tax_amount : ℚ
  payment_currency_code : String
  payment_amount : ℚ
  payment_rate_to_usd : ℚ
  payment_amount_usd : ℚ
  payment_difference_usd : ℚ
  commission_pct : ℚ
  commission_amount_usd : ℚ
  manual_total_override : Bool
  manual_total_input_usd : Option ℚ
  manual_total_original_usd : Option ℚ
  sale_total : ℚ
  line_count : ℕ
deriving DecidableEq, Repr

/-- Outcome of `create_sale`: either the non-committing HTTP-409
possible-duplicate response (`sales.py:541-558`) or the created invoice. -/
inductive CreateResult where
  | duplicate (possible_duplicates : List DuplicateCandidate) (invoice_total : ℚ)
  | created (resp : SaleResponse)
deriving DecidableEq, Repr

/-- `create_sale` (`sales.py:465-657`).  Validation and the duplicate guard
run before any mutation; the stock decrements, sale rows and `sale` movements
are committed together at the end (one transaction). -/
def createSale (ctx : Ctx) (st : DBState) (req : SaleCreateRequest) :
    Except Err (DBState × CreateResult) :=
  if req.items = [] then .error .emptyInvoice
  else
    let customer_name := pyStrip req.customer_name
    if customer_name = "" then .error .emptyCustomerName
    else if req.manual_invoice_total.isSome ∧ ctx.is_admin = false then
      .error .forbiddenManualTotal
    else
      let currency := pyUpper (pyOr req.currency_code "USD")
      if (lookupRate ctx.rates currency).isNone then .error .invalidCurrency
      else do
        let (validated_items, raw_subtotal) ← validateItems st.products req.items
        let suggested_discount : ℚ := if 300 < raw_subtotal then 7 else 0
        let discount_pct := req.discount_pct.getD suggested_discount
        let calc0 ← buildInvoiceLines ctx.settings validated_items discount_pct
        let (c, manualInfo) ← applyManual ctx calc0 req.manual_invoice_total
        let invoice_total := c.total
        let cands := duplicateCandidates st.sales invoice_total ctx.now
        if cands ≠ [] ∧ req.confirm_possible_duplicate = false then
          .ok (st, .duplicate
            (cands.map (fun d => { d with invoice_total := round2 d.invoice_total }))
            (round2 invoice_total))
        else do
          let seller ← resolveSeller ctx req.seller_user_id
          let sale_date := req.sale_date.getD ctx.now
          let (payment_currency, payment_amount, payment_rate_to_usd, payment_amount_usd) ←
            resolvePayment ctx.rates req.payment_currency_code req.payment_amount
              invoice_total
          let commission_pct := ctx.settings.sales_commission_pct
          let (commission_lines, invoice_commission_total) :=
            calculateCommissionsForLines c.lines payment_amount_usd commission_pct
          let sale_rows := List.zipWith (fun (l : Line) (f : CommissionLine) =>
            ({ invoice_code := ctx.invoice_code
               product_id := l.product.id
               quantity := l.quantity
               currency_code := currency
               unit_price_usd := l.unit_price_usd
               subtotal_usd := l.subtotal_usd
               discount_pct := c.discount_pct
               discount_amount_usd := l.discount_amount_usd
               tax_pct := l.tax_pct
               tax_amount_usd := l.tax_amount_usd
               total_usd := l.total_usd
               customer_name := customer_name
               customer_phone := pyStrip req.customer_phone
               customer_address := pyStrip req.customer_address
               customer_rif := pyStrip req.customer_rif
               seller_user_id := some seller.id
               sale_date := some sale_date
               payment_currency_code := payment_currency
               payment_amount := some payment_amount
               payment_rate_to_usd := some payment_rate_to_usd
               payment_amount_usd := some payment_amount_usd
               manual_total_override := manualInfo.manual_total_override
               manual_total_input_usd := manualInfo.manual_total_input_usd
               manual_total_original_usd := manualInfo.manual_total_original_usd
               manual_total_set_by := manualInfo.manual_total_set_by
               manual_total_set_at := manualInfo.manual_total_set_at
               commission_pct := commission_pct
               commission_amount_usd := f.commission_line_usd
               created_by := ctx.current_user.id
               created_at := ctx.now } : SaleRow)) c.lines commission_lines
          let movement_rows := c.lines.map (fun l =>
            ({ product_id := l.product.id
               movement_type := "sale"
               quantity := -l.quantity
               note := "Venta " ++ ctx.invoice_code ++ " #" ++ l.product.sku
               created_by := ctx.current_user.id } : InventoryMovement))
          let products2 := c.lines.foldl
            (fun ps l => applyStockDelta ps l.product.id (-l.quantity)) st.products
          .ok ({ products := products2
                 sales := st.sales ++ sale_rows
                 movements := st.movements ++ movement_rows },
            .created { invoice_code := ctx.invoice_code
                       currency_code := currency
                       seller_user_id := seller.id
                       seller_name := seller.full_name
                       sale_date := sale_date
                       subtotal := c.subtotal
                       discount_pct := discount_pct
                       discount_amount := c.discount_amount
                       tax_pct := c.tax_pct
                       tax_amount := c.tax_amount
                       payment_currency_code := payment_currency
                       payment_amount := payment_amount
                       payment_rate_to_usd := payment_rate_to_usd
                       payment_amount_usd := payment_amount_usd
                       payment_difference_usd := round2 (payment_amount_usd - invoice_total)
                       commission_pct := commission_pct
                       commission_amount_usd := invoice_commission_total
                       manual_total_override := manualInfo.manual_total_override
                       manual_total_input_usd := manualInfo.manual_total_input_usd
                       manual_total_original_usd := manualInfo.manual_total_original_usd
                       sale_total := invoice_total
                       line_count := sale_rows.length })

/-- The state a client observes after `create_sale`: the committed state on
success, the unchanged state when the handler raises (transaction rollback). -/
def createSaleState (ctx : Ctx) (st : DBState) (req : SaleCreateRequest) : DBState :=
  match createSale ctx st req with
  | .ok (st2, _) => st2
  | .error _ => st

/-- Response body of `void_invoices` (`sales.py:723-727`). -/
structure VoidResponse where
  voided_invoices : List String
  voided_lines : ℕ
deriving DecidableEq, Repr

/-- The in-place mutation of one sale row by `void_invoices`
(`sales.py:707-710`). -/
def flipVoided (uid : ℕ) (now : ℤ) (reason : String) (r : SaleRow) : SaleRow :=
  { r with
      is_voided := true
      voided_at := some now
      voided_by := some uid
      void_reason := reason }

def insertStringAsc (s : String) : List String → List String
  | [] => [s]
  | x :: rest => if s ≤ x then s :: x :: rest else x :: insertStringAsc s rest

/-- `sorted(...)` over invoice codes. -/
def sortStringsAsc : List String → List String
  | [] => []
  | x :: rest => insertStringAsc x (sortStringsAsc rest)

/-- `sales.py:669-670`: strip, drop empties and deduplicate the requested
invoice codes. -/
def normCodes (invoice_codes : List String) : List String :=
  dedupFirst ((invoice_codes.map pyStrip).filter (fun c => c != ""))

/-- `sales.py:674-679`: the active (non-voided) sale rows of the requested
invoice codes, in id order. -/
def activeRows (st : DBState) (codes : List String) : List SaleRow :=
  st.sales.filter (fun r => codes.contains r.invoice_code && !r.is_voided)

/-- `void_invoices` (`sales.py:660-727`): admin-only; select all active
(non-voided) rows of the requested invoice codes, restore each row's product
stock by the row quantity, append one `sale_reversal` movement per row whose
product exists, and flip the void flags with actor/time/reason. -/
def voidInvoices (ctx : Ctx) (st : DBState) (invoice_codes : List String)
    (reason : String) : Except Err (DBState × VoidResponse) :=
  if ctx.is_admin = false then .error .forbiddenVoid
  else
    let codes := normCodes invoice_codes
    if codes = [] then .error .noInvoicesSelected
    else
      let rows := activeRows st codes
      if rows = [] then .error .notFoundActive
      else
        let reason_t := pyStrip reason
        let movements := rows.filterMap (fun r =>
          (findProduct st.products r.product_id).map (fun p =>
            ({ product_id := p.id
               movement_type := "sale_reversal"
               quantity := r.quantity
               note := (if reason_t = "" then
                   "Anulacion factura " ++ r.invoice_code ++ " #" ++ p.sku
                 else
                   "Anulacion factura " ++ r.invoice_code ++ " #" ++ p.sku ++
                     " - " ++ reason_t)
               created_by := ctx.current_user.id } : InventoryMovement)))
        let products2 := rows.foldl (fun ps r =>
          if (findProduct st.products r.product_id).isSome then
            applyStockDelta ps r.product_id r.quantity
          else ps) st.products
        let sales2 := st.sales.map (fun r =>
          if codes.contains r.invoice_code && !r.is_voided then
            flipVoided ctx.current_user.id ctx.now reason_t r
          else r)
        .ok ({ products := products2, sales := sales2,
               movements := st.movements ++ movements },
          { voided_invoices := sortStringsAsc (dedupFirst (rows.map (·.invoice_code)))
            voided_lines := rows.length })

/-- The state a client observes after `void_invoices` (rollback on error). -/
def voidState (ctx : Ctx) (st : DBState) (invoice_codes : List String)
    (reason : String) : DBState :=
  match voidInvoices ctx st invoice_codes reason with
  | .ok (st2, _) => st2
  | .error _ => st

/-- Current stock of a product id on the session (0 when the id is absent). -/
def stockOf (ps : List Product) (pid : ℕ) : ℤ :=
  ((findProduct ps pid).map (·.stock)).getD 0

theorem findProduct_id {ps : List Product} {pid : ℕ} {p : Product}
    (h : findProduct ps pid = some p) : p.id = pid := by
  have := List.find?_some h
  simpa using this

theorem applyStockDelta_find (ps : List Product) (pid pid2 : ℕ) (δ : ℤ) :
    (findProduct (applyStockDelta ps pid δ) pid2).isSome
      = (findProduct ps pid2).isSome ∧
    stockOf (applyStockDelta ps pid δ) pid2 =
      stockOf ps pid2 +
        (if pid2 = pid ∧ (findProduct ps pid2).isSome then δ else 0) := by
  induction ps with
  | nil => simp [applyStockDelta, findProduct, stockOf]
  | cons p ps ih =>
    by_cases hmatch : p.id = pid2
    · have hbeq : (p.id == pid2) = true := by simp [hmatch]
      have hid : (if p.id = pid then { p with stock := p.stock + δ } else p).id = p.id := by
        split <;> rfl
      have hbeq2 : ((if p.id = pid then { p with stock := p.stock + δ } else p).id == pid2)
          = true := by rw [hid]; exact hbeq
      constructor
      · simp [applyStockDelta, findProduct, List.find?_cons, hbeq, hbeq2]
      · by_cases hp : p.id = pid
        · have : pid2 = pid := by rw [← hmatch, hp]
          simp [applyStockDelta, findProduct, List.find?_cons, hbeq, hbeq2, stockOf,
            hp, this]
        · have : ¬ pid2 = pid := by rw [← hmatch]; exact hp
          simp [applyStockDelta, findProduct, List.find?_cons, hbeq, hbeq2, stockOf,
            hp, this]
    · have hbeq : (p.id == pid2) = false := by simp [hmatch]
      have hid : (if p.id = pid then { p with stock := p.stock + δ } else p).id = p.id := by
        split <;> rfl
      have hbeq2 : ((if p.id = pid then { p with stock := p.stock + δ } else p).id == pid2)
          = false := by rw [hid]; exact hbeq
      obtain ⟨ih1, ih2⟩ := ih
      constructor
      · simpa [applyStockDelta, findProduct, List.find?_cons, hbeq, hbeq2] using ih1
      · simpa [applyStockDelta, findProduct, List.find?_cons, hbeq, hbeq2, stockOf]
          using ih2

/-- Effect of the stock-restoring fold of `void_invoices` on any product id:
it adds the summed quantity of the processed rows for that id, provided every
processed row's product exists in the (fixed) lookup map. -/
theorem voidFold_stock (orig : List Product) :
    ∀ (rows : List SaleRow) (ps : List Product),
      (∀ r ∈ rows, (findProduct orig r.product_id).isSome) →
      (∀ pid, (findProduct ps pid).isSome = (findProduct orig pid).isSome) →
      ∀ pid,
        stockOf (rows.foldl (fun acc r =>
          if (findProduct orig r.product_id).isSome then
            applyStockDelta acc r.product_id r.quantity
          else acc) ps) pid =
        stockOf ps pid +
          ((rows.filter (fun r => r.product_id == pid)).map (·.quantity)).sum := by
  intro rows
  induction rows with
  | nil => intro ps hall hinv pid; simp
  | cons r rest ih =>
    intro ps hall hinv pid
    have hr : (findProduct orig r.product_id).isSome = true := hall r (by simp)
    rw [List.foldl_cons, if_pos hr]
    have hinv2 : ∀ pid2, (findProduct (applyStockDelta ps r.product_id r.quantity) pid2).isSome
        = (findProduct orig pid2).isSome := by
      intro pid2
      rw [(applyStockDelta_find ps r.product_id pid2 r.quantity).1, hinv pid2]
    rw [ih (applyStockDelta ps r.product_id r.quantity)
      (fun x hx => hall x (by simp [hx])) hinv2 pid]
    rw [(applyStockDelta_find ps r.product_id pid r.quantity).2]
    by_cases hpid : r.product_id = pid
    · have hc : pid = r.product_id ∧ (findProduct ps pid).isSome = true :=
        ⟨hpid.symm, by rw [hinv pid, ← hpid]; exact hr⟩
      rw [if_pos hc]
      simp only [List.filter_cons, hpid, beq_self_eq_true, if_pos]
      simp [List.sum_cons]
      ring
    · have hc : ¬ (pid = r.product_id ∧ (findProduct ps pid).isSome = true) := by
        rintro ⟨rfl, -⟩
        exact hpid rfl
      rw [if_neg hc]
      have : (r.product_id == pid) = false := by simp [hpid]
      simp only [List.filter_cons, this]
      simp

/-- If every requested product exists with a positive quantity but some line
has stock below its quantity, the validation loop raises the
insufficient-stock error (for the first offending line). -/
theorem validateItems_insufficient (ps : List Product) :
    ∀ (items : List SaleLineRequest),
      (∀ it ∈ items, 0 < it.quantity ∧ (findProduct ps it.product_id).isSome) →
      (∃ it ∈ items, ∀ p, findProduct ps it.product_id = some p →
        p.stock < it.quantity) →
      ∃ sku, validateItems ps items = .error (.insufficientStock sku) := by
  intro items
  induction items with
  | nil => rintro - ⟨it, hmem, -⟩; simp at hmem
  | cons hd tl ih =>
    rintro hall ⟨it, hmem, hlow⟩
    obtain ⟨hq, hfind⟩ := hall hd (by simp)
    obtain ⟨p, hp⟩ := Option.isSome_iff_exists.mp hfind
    by_cases hstock : p.stock < hd.quantity
    · refine ⟨p.sku, ?_⟩
      rw [validateItems, hp]
      simp only [if_neg (not_le.mpr hq), if_pos hstock]
    · rcases List.mem_cons.mp hmem with rfl | hmemtl
      · exact absurd (hlow p hp) hstock
      · obtain ⟨sku, hsku⟩ := ih (fun x hx => hall x (by simp [hx])) ⟨it, hmemtl, hlow⟩
        refine ⟨sku, ?_⟩
        rw [validateItems, hp]
        simp only [if_neg (not_le.mpr hq), if_neg hstock]
        rw [hsku, exceptErr_bind]

/-- **C6.**  When the request passes all checks that precede the stock check
(non-empty items, customer name present, manual-total permission, valid
currency, all products found, all quantities positive) but some line's
product has stock below the requested quantity, `create_sale` fails with the
insufficient-stock error and the observable state is unchanged: no stock
mutation, no sale rows, no inventory movements. -/
theorem create_sale_insufficient_stock_atomic (ctx : Ctx) (st : DBState)
    (req : SaleCreateRequest)
    (h1 : req.items ≠ [])
    (h2 : pyStrip req.customer_name ≠ "")
    (h3 : ¬(req.manual_invoice_total.isSome ∧ ctx.is_admin = false))
    (h4 : (lookupRate ctx.rates (pyUpper (pyOr req.currency_code "USD"))).isSome)
    (h5 : ∀ it ∈ req.items, 0 < it.quantity ∧
      (findProduct st.products it.product_id).isSome)
    (h6 : ∃ it ∈ req.items, ∀ p, findProduct st.products it.product_id = some p →
      p.stock < it.quantity) :
    (∃ sku, createSale ctx st req = .error (.insufficientStock sku)) ∧
    createSaleState ctx st req = st := by
  obtain ⟨sku, hv⟩ := validateItems_insufficient st.products req.items h5 h6
  have hnone : (lookupRate ctx.rates (pyUpper (pyOr req.currency_code "USD"))).isNone
      = false := by
    obtain ⟨r, hr⟩ := Option.isSome_iff_exists.mp h4
    rw [hr]
    rfl
  have hcs : createSale ctx st req = .error (.insufficientStock sku) := by
    simp only [createSale, if_neg h1, if_neg h2, if_neg h3, hnone, Bool.false_eq_true,
      if_false, hv, exceptErr_bind]
  exact ⟨⟨sku, hcs⟩, by simp only [createSaleState, hcs]⟩

/-- The spec's insufficient-stock scenario: a product with stock 3 requested
with quantity 5. -/
def lowStockProduct : Product :=
  { id := 9, sku := "SKU-LOW", final_customer_price := 10, cost_amount := 4,
    stock := 3 }

def baseCtx : Ctx :=
  { settings := {}
    rates := [("USD", 1)]
    users := [{ id := 1, full_name := "Vendedor Uno" }]
    current_user := { id := 1, full_name := "Vendedor Uno" }
    is_admin := true
    can_assign_other := true
    now := 1000000
    invoice_code := "FAC-TEST01" }

def c6state : DBState :=
  { products := [lowStockProduct], sales := [], movements := [] }

def c6req : SaleCreateRequest :=
  { customer_name := "Cliente", items := [{ product_id := 9, quantity := 5 }] }

/-- Witness for C6 at the spec's scenario (stock 3, quantity 5). -/
theorem create_sale_insufficient_stock_atomic_witness :
    (∃ sku, createSale baseCtx c6state c6req = .error (.insufficientStock sku)) ∧
    createSaleState baseCtx c6state c6req = c6state :=
  create_sale_insufficient_stock_atomic baseCtx c6state c6req
    (by simp [c6req])
    (by decide)
    (by simp [c6req])
    (by decide)
    (by intro it hit
        simp only [c6req, List.mem_singleton] at hit
        subst hit
        exact ⟨by norm_num, by decide⟩)
    ⟨{ product_id := 9, quantity := 5 }, by simp [c6req],
      fun p hp => by
        have : p = lowStockProduct := by
          have h2 := hp
          simp only [c6state, findProduct, lowStockProduct, List.find?] at h2
          simp at h2
          exact h2.symm
        rw [this]
        norm_num [lowStockProduct]⟩

/-- The reversal movements appended by `void_invoices` correspond one-to-one
to the active rows (product, quantity, type `sale_reversal`), provided every
row's product exists. -/
theorem void_movements_spec (ps : List Product) (uid : ℕ) (reason_t : String) :
    ∀ (rows : List SaleRow),
      (∀ r ∈ rows, (findProduct ps r.product_id).isSome) →
      List.Forall₂ (fun r m => m.product_id = r.product_id ∧
        m.quantity = r.quantity ∧ m.movement_type = "sale_reversal")
        rows
        (rows.filterMap (fun r => (findProduct ps r.product_id).map (fun p =>
          ({ product_id := p.id
             movement_type := "sale_reversal"
             quantity := r.quantity
             note := (if reason_t = "" then
                 "Anulacion factura " ++ r.invoice_code ++ " #" ++ p.sku
               else
                 "Anulacion factura " ++ r.invoice_code ++ " #" ++ p.sku ++
                   " - " ++ reason_t)
             created_by := uid } : InventoryMovement)))) := by
  intro rows
  induction rows with
  | nil => intro _; exact List.Forall₂.nil
  | cons r rest ih =>
    intro hall
    obtain ⟨p, hp⟩ := Option.isSome_iff_exists.mp (hall r (by simp))
    simp only [List.filterMap_cons, hp, Option.map_some]
    exact List.Forall₂.cons ⟨findProduct_id hp, rfl, rfl⟩
      (ih fun x hx => hall x (by simp [hx]))

/-- A void request whose codes select no active rows fails with the
NotFound error and leaves the state unchanged. -/
theorem voidInvoices_err_of_no_active (ctx : Ctx) (st : DBState)
    (invoice_codes : List String) (reason : String)
    (hadmin : ctx.is_admin = true)
    (hcodes : normCodes invoice_codes ≠ [])
    (hempty : activeRows st (normCodes invoice_codes) = []) :
    voidInvoices ctx st invoice_codes reason = .error .notFoundActive ∧
    voidState ctx st invoice_codes reason = st := by
  have hadmF : ¬ (ctx.is_admin = false) := by simp [hadmin]
  have h : voidInvoices ctx st invoice_codes reason = .error .notFoundActive := by
    simp only [voidInvoices, if_neg hadmF, if_neg hcodes]
    rw [if_pos hempty]
  exact ⟨h, by simp only [voidState, h]⟩

/-- **C7.**  Voiding restores, for every product id, the stock by the summed
quantity of the affected active lines, appends exactly one `sale_reversal`
movement per active line, flips each active line's void flags with
actor/time/reason — and a second void attempt on the same codes finds no
active lines, fails with the NotFound error and leaves the state unchanged
(Voided is terminal). -/
theorem void_invoices_restores_stock (ctx : Ctx) (st : DBState)
    (invoice_codes : List String) (reason : String)
    (hadmin : ctx.is_admin = true)
    (hcodes : normCodes invoice_codes ≠ [])
    (hactive : activeRows st (normCodes invoice_codes) ≠ [])
    (hprod : ∀ r ∈ activeRows st (normCodes invoice_codes),
      (findProduct st.products r.product_id).isSome) :
    ∃ st2 resp, voidInvoices ctx st invoice_codes reason = .ok (st2, resp) ∧
      st2.sales = st.sales.map (fun r =>
        if (normCodes invoice_codes).contains r.invoice_code && !r.is_voided then
          flipVoided ctx.current_user.id ctx.now (pyStrip reason) r
        else r) ∧
      (∀ pid, stockOf st2.products pid = stockOf st.products pid +
        (((activeRows st (normCodes invoice_codes)).filter
          (fun r => r.product_id == pid)).map (·.quantity)).sum) ∧
      (∃ ms, st2.movements = st.movements ++ ms ∧
        List.Forall₂ (fun r m => m.product_id = r.product_id ∧
          m.quantity = r.quantity ∧ m.movement_type = "sale_reversal")
          (activeRows st (normCodes invoice_codes)) ms) ∧
      voidInvoices ctx st2 invoice_codes reason = .error .notFoundActive ∧
      voidState ctx st2 invoice_codes reason = st2 := by
  have hadmF : ¬ (ctx.is_admin = false) := by simp [hadmin]
  have hok : voidInvoices ctx st invoice_codes reason = .ok
      ({ products := (activeRows st (normCodes invoice_codes)).foldl (fun ps r =>
            if (findProduct st.products r.product_id).isSome then
              applyStockDelta ps r.product_id r.quantity
            else ps) st.products
         sales := st.sales.map (fun r =>
            if (normCodes invoice_codes).contains r.invoice_code && !r.is_voided then
              flipVoided ctx.current_user.id ctx.now (pyStrip reason) r
            else r)
         movements := st.movements ++
           (activeRows st (normCodes invoice_codes)).filterMap (fun r =>
             (findProduct st.products r.product_id).map (fun p =>
               ({ product_id := p.id
                  movement_type := "sale_reversal"
                  quantity := r.quantity
                  note := (if pyStrip reason = "" then
                      "Anulacion factura " ++ r.invoice_code ++ " #" ++ p.sku
                    else
                      "Anulacion factura " ++ r.invoice_code ++ " #" ++ p.sku ++
                        " - " ++ pyStrip reason)
                  created_by := ctx.current_user.id } : InventoryMovement))) },
       { voided_invoices := sortStringsAsc (dedupFirst
           ((activeRows st (normCodes invoice_codes)).map (·.invoice_code)))
         voided_lines := (activeRows st (normCodes invoice_codes)).length }) := by
    simp only [voidInvoices, if_neg hadmF, if_neg hcodes, if_neg hactive]
  set st2sales := st.sales.map (fun r =>
    if (normCodes invoice_codes).contains r.invoice_code && !r.is_voided then
      flipVoided ctx.current_user.id ctx.now (pyStrip reason) r
    else r) with hst2sales
  have hsel : ∀ x ∈ st2sales,
      ¬ (((normCodes invoice_codes).contains x.invoice_code && !x.is_voided) = true) := by
    intro x hx
    obtain ⟨y, hy, rfl⟩ := List.mem_map.mp hx
    by_cases hs : ((normCodes invoice_codes).contains y.invoice_code && !y.is_voided) = true
    · rw [if_pos hs]
      simp [flipVoided]
    · rw [if_neg hs]
      exact hs
  have hempty2 : st2sales.filter (fun r =>
      (normCodes invoice_codes).contains r.invoice_code && !r.is_voided) = [] :=
    List.filter_eq_nil_iff.mpr hsel
  refine ⟨_, _, hok, rfl, ?_, ⟨_, rfl, ?_⟩, ?_, ?_⟩
  · intro pid
    exact voidFold_stock st.products (activeRows st (normCodes invoice_codes))
      st.products hprod (fun _ => rfl) pid
  · exact void_movements_spec st.products ctx.current_user.id (pyStrip reason)
      (activeRows st (normCodes invoice_codes)) hprod
  · exact (voidInvoices_err_of_no_active ctx _ invoice_codes reason hadmin hcodes
      (by simpa [activeRows] using hempty2)).1
  · exact (voidInvoices_err_of_no_active ctx _ invoice_codes reason hadmin hcodes
      (by simpa [activeRows] using hempty2)).2

/-- An active sale row used by the void witness. -/
def c7row : SaleRow :=
  { invoice_code := "FAC-A", product_id := 1, quantity := 2, subtotal_usd := 200,
    total_usd := 200, sale_date := some 999900, created_by := 1,
    created_at := 999900 }

def c7state : DBState :=
  { products := [productA], sales := [c7row], movements := [] }

/-- Witness for C7: voiding the one-line invoice FAC-A. -/
theorem void_invoices_restores_stock_witness :
    ∃ st2 resp, voidInvoices baseCtx c7state ["FAC-A"] "duplicada" = .ok (st2, resp) ∧
      st2.sales = c7state.sales.map (fun r =>
        if (normCodes ["FAC-A"]).contains r.invoice_code && !r.is_voided then
          flipVoided baseCtx.current_user.id baseCtx.now (pyStrip "duplicada") r
        else r) ∧
      (∀ pid, stockOf st2.products pid = stockOf c7state.products pid +
        (((activeRows c7state (normCodes ["FAC-A"])).filter
          (fun r => r.product_id == pid)).map (·.quantity)).sum) ∧
      (∃ ms, st2.movements = c7state.movements ++ ms ∧
        List.Forall₂ (fun r m => m.product_id = r.product_id ∧
          m.quantity = r.quantity ∧ m.movement_type = "sale_reversal")
          (activeRows c7state (normCodes ["FAC-A"])) ms) ∧
      voidInvoices baseCtx st2 ["FAC-A"] "duplicada" = .error .notFoundActive ∧
      voidState baseCtx st2 ["FAC-A"] "duplicada" = st2 :=
  void_invoices_restores_stock baseCtx c7state ["FAC-A"] "duplicada" rfl
    (by decide) (by decide) (by decide)

/-- **C9.**  `create_sale` rejects an empty item list with the empty-invoice
error before any computation (and mutates nothing), and the Line Pricer
`build_invoice_lines` fails with the invalid-quantity error on every input
containing a line with quantity ≤ 0. -/
theorem pricer_rejects_bad_inputs :
    (∀ (ctx : Ctx) (st : DBState) (req : SaleCreateRequest), req.items = [] →
      createSale ctx st req = .error .emptyInvoice ∧
      createSaleState ctx st req = st) ∧
    (∀ (s : Settings) (items : List (Product × ℤ)) (dpct : ℚ),
      (∃ x ∈ items, x.2 ≤ 0) →
      buildInvoiceLines s items dpct = .error .invalidQuantity) := by
  constructor
  · intro ctx st req h
    have hcs : createSale ctx st req = .error .emptyInvoice := by
      simp only [createSale, if_pos h]
    exact ⟨hcs, by simp only [createSaleState, hcs]⟩
  · intro s items dpct h
    simp only [buildInvoiceLines, collectLineSubtotals_err items h, exceptErr_bind]

/-- Witness for C9: an empty item list and a zero quantity. -/
theorem pricer_rejects_bad_inputs_witness :
    (createSale baseCtx c6state { customer_name := "Cliente", items := [] }
        = .error .emptyInvoice ∧
      createSaleState baseCtx c6state { customer_name := "Cliente", items := [] }
        = c6state) ∧
    buildInvoiceLines {} [(productA, 0)] 5 = .error .invalidQuantity :=
  ⟨pricer_rejects_bad_inputs.1 baseCtx c6state _ rfl,
   pricer_rejects_bad_inputs.2 {} [(productA, 0)] 5
     ⟨(productA, 0), by simp, le_refl 0⟩⟩

/-- **C8.**  Duplicate-invoice guard: once the request passes validation and
pricing, if the duplicate query finds candidate invoices (non-voided, last 24
hours, summed total within one cent of the new invoice total) and the caller
has not set `confirm_possible_duplicate`, `create_sale` returns the
non-committing possible-duplicate response listing the candidates and the
state is unchanged — no sale rows, stock changes or movements; with
confirmation set (or no candidates found) the invoice is created normally,
appending one sale row per line. -/
theorem create_sale_duplicate_guard (ctx : Ctx) (st : DBState)
    (req : SaleCreateRequest) (vi : List (Product × ℤ)) (raw : ℚ)
    (c0 c : Calc) (mi : ManualInfo)
    (h1 : req.items ≠ [])
    (h2 : pyStrip req.customer_name ≠ "")
    (h3 : ¬(req.manual_invoice_total.isSome ∧ ctx.is_admin = false))
    (h4 : (lookupRate ctx.rates (pyUpper (pyOr req.currency_code "USD"))).isSome)
    (hv : validateItems st.products req.items = .ok (vi, raw))
    (hb : buildInvoiceLines ctx.settings vi
      (req.discount_pct.getD (if 300 < raw then 7 else 0)) = .ok c0)
    (hm : applyManual ctx c0 req.manual_invoice_total = .ok (c, mi)) :
    (duplicateCandidates st.sales c.total ctx.now ≠ [] →
      req.confirm_possible_duplicate = false →
      createSale ctx st req = .ok (st, .duplicate
        ((duplicateCandidates st.sales c.total ctx.now).map
          (fun d => { d with invoice_total := round2 d.invoice_total }))
        (round2 c.total)) ∧
      createSaleState ctx st req = st) ∧
    ((duplicateCandidates st.sales c.total ctx.now = [] ∨
        req.confirm_possible_duplicate = true) →
      ∀ (seller : UserRec) (pc : String) (pa pr pu : ℚ),
        resolveSeller ctx req.seller_user_id = .ok seller →
        resolvePayment ctx.rates req.payment_currency_code req.payment_amount c.total
          = .ok (pc, pa, pr, pu) →
        ∃ st2 resp, createSale ctx st req = .ok (st2, .created resp) ∧
          (∃ rows, st2.sales = st.sales ++ rows ∧ rows.length = c.lines.length) ∧
          resp.invoice_code = ctx.invoice_code) := by
  have hnone : (lookupRate ctx.rates (pyUpper (pyOr req.currency_code "USD"))).isNone
      = false := by
    obtain ⟨r, hr⟩ := Option.isSome_iff_exists.mp h4
    rw [hr]; rfl
  constructor
  · intro hd hc
    have hcs : createSale ctx st req = .ok (st, .duplicate
        ((duplicateCandidates st.sales c.total ctx.now).map
          (fun d => { d with invoice_total := round2 d.invoice_total }))
        (round2 c.total)) := by
      simp only [createSale, if_neg h1, if_neg h2, if_neg h3, hnone,
        Bool.false_eq_true, if_false, hv, exceptOk_bind, hb, hm]
      rw [if_pos ⟨hd, hc⟩]
    exact ⟨hcs, by simp only [createSaleState, hcs]⟩
  · intro hor seller pc pa pr pu hs hp
    have hcond : ¬(duplicateCandidates st.sales c.total ctx.now ≠ [] ∧
        req.confirm_possible_duplicate = false) := by
      rcases hor with h | h
      · intro hcontra; exact hcontra.1 h
      · intro hcontra
        rw [h] at hcontra
        exact absurd hcontra.2 (by simp)
    simp only [createSale, if_neg h1, if_neg h2, if_neg h3, hnone,
      Bool.false_eq_true, if_false, hv, exceptOk_bind, hb, hm]
    rw [if_neg hcond]
    simp only [hs, exceptOk_bind, hp, calculateCommissionsForLines]
    refine ⟨_, _, rfl, ⟨_, rfl, ?_⟩, rfl⟩
    rw [List.length_zipWith, commissionLines_length]
    exact Nat.min_self _

/-- An existing active invoice from the last 24 hours with total 100. -/
def c8row : SaleRow :=
  { invoice_code := "FAC-OLD", product_id := 1, quantity := 1, subtotal_usd := 100,
    total_usd := 100, customer_name := "Ana", sale_date := some 999900,
    created_by := 1, created_at := 999900 }

def c8state : DBState :=
  { products := [productA], sales := [c8row], movements := [] }

def c8req : SaleCreateRequest :=
  { customer_name := "Cliente", items := [{ product_id := 1, quantity := 1 }] }

/-- The calc of the new one-line invoice (price 100, no discount, no tax). -/
def c8Line : Line :=
  { product := productA, quantity := 1, unit_price_usd := 100, subtotal_usd := 100,
    discount_amount_usd := 0, tax_pct := 0, tax_amount_usd := 0, total_usd := 100 }

def c8Calc : Calc :=
  { discount_pct := 0, subtotal := 100, discount_amount := 0, tax_pct := 0,
    tax_amount := 0, total := 100, lines := [c8Line] }

/-- Witness for C8: creating a second 100-USD invoice within 24 hours without
confirmation returns the 409 possible-duplicate response and persists
nothing. -/
theorem create_sale_duplicate_guard_witness :
    createSale baseCtx c8state c8req = .ok (c8state, .duplicate
      ((duplicateCandidates c8state.sales c8Calc.total baseCtx.now).map
        (fun d => { d with invoice_total := round2 d.invoice_total }))
      (round2 c8Calc.total)) ∧
    createSaleState baseCtx c8state c8req = c8state :=
  (create_sale_duplicate_guard baseCtx c8state c8req [(productA, 1)] 100
    c8Calc c8Calc {}
    (by simp [c8req])
    (by decide)
    (by simp [c8req])
    (by decide)
    (by norm_num [validateItems, c8req, findProduct, productA, List.find?,
        exceptOk_bind])
    (by have hs : (("none" : String) = "nearest_integer") = False := eq_false (by decide)
        norm_num [buildInvoiceLines, collectLineSubtotals, prorateLines, baseCtx,
          productA, c8req, c8Calc, c8Line, exceptOk_bind, round2, roundHalfEven,
          -Int.self_sub_floor, hs])
    rfl).1
    (by norm_num [duplicateCandidates, dedupFirst, sortByDateDesc, insertByDateDesc,
        rowDate, c8state, c8row, c8Calc, baseCtx, List.max?, round2, roundHalfEven,
        -Int.self_sub_floor])
    rfl

/-- **C10.**  On a successful creation, the discount percentage applied (and
echoed in the response) is the caller's `discount_pct` when supplied, and
otherwise the silent suggestion: 7.0 when the raw (unrounded) subtotal of the
requested items exceeds 300 USD, 0.0 otherwise. -/
theorem create_sale_suggested_discount (ctx : Ctx) (st : DBState)
    (req : SaleCreateRequest) (vi : List (Product × ℤ)) (raw : ℚ)
    (st2 : DBState) (resp : SaleResponse)
    (hv : validateItems st.products req.items = .ok (vi, raw))
    (h : createSale ctx st req = .ok (st2, .created resp)) :
    resp.discount_pct = req.discount_pct.getD (if 300 < raw then 7 else 0) := by
  simp only [createSale] at h
  split at h
  · exact absurd h (by simp)
  · split at h
    · exact absurd h (by simp)
    · split at h
      · exact absurd h (by simp)
      · split at h
        · exact absurd h (by simp)
        · rw [hv, exceptOk_bind] at h
          cases hbb : buildInvoiceLines ctx.settings vi
              (req.discount_pct.getD (if 300 < raw then 7 else 0)) with
          | error e => rw [hbb, exceptErr_bind] at h; exact absurd h (by simp)
          | ok c0 =>
            rw [hbb, exceptOk_bind] at h
            cases hmm : applyManual ctx c0 req.manual_invoice_total with
            | error e => rw [hmm, exceptErr_bind] at h; exact absurd h (by simp)
            | ok pm =>
              obtain ⟨c, mi⟩ := pm
              rw [hmm, exceptOk_bind] at h
              split at h
              · exact absurd (congrArg Prod.snd (Except.ok.inj h)) (by simp)
              · cases hss : resolveSeller ctx req.seller_user_id with
                | error e => rw [hss, exceptErr_bind] at h; exact absurd h (by simp)
                | ok seller =>
                  rw [hss, exceptOk_bind] at h
                  cases hpp : resolvePayment ctx.rates req.payment_currency_code
                      req.payment_amount c.total with
                  | error e => rw [hpp, exceptErr_bind] at h; exact absurd h (by simp)
                  | ok quad =>
                    obtain ⟨pc, pa, pr, pu⟩ := quad
                    rw [hpp, exceptOk_bind] at h
                    simp only [calculateCommissionsForLines] at h
                    have hresp := congrArg Prod.snd (Except.ok.inj h)
                    simp only at hresp
                    have hr := CreateResult.created.inj hresp
                    rw [← hr]

def c10state : DBState :=
  { products := [productA], sales := [], movements := [] }

/-- The sale row created by the C10 witness run. -/
def c10row : SaleRow :=
  { invoice_code := "FAC-TEST01", product_id := 1, quantity := 1,
    currency_code := "USD", unit_price_usd := 100, subtotal_usd := 100,
    discount_pct := 0, discount_amount_usd := 0, tax_pct := 0, tax_amount_usd := 0,
    total_usd := 100, customer_name := "Cliente", customer_phone := "",
    customer_address := "", customer_rif := "", seller_user_id := some 1,
    sale_date := some 1000000, payment_currency_code := "USD",
    payment_amount := some 100, payment_rate_to_usd := some 1,
    payment_amount_usd := some 100, manual_total_override := false,
    manual_total_input_usd := none, manual_total_original_usd := none,
    manual_total_set_by := none, manual_total_set_at := none, commission_pct := 7,
    commission_amount_usd := 21/5, is_voided := false, voided_at := none,
    voided_by := none, void_reason := "", created_by := 1, created_at := 1000000 }

def c10movement : InventoryMovement :=
  { product_id := 1, movement_type := "sale", quantity := -1,
    note := "Venta FAC-TEST01 #SKU-A", created_by := 1 }

def c10st2 : DBState :=
  { products := [{ productA with stock := 9 }], sales := [c10row],
    movements := [c10movement] }

def c10resp : SaleResponse :=
  { invoice_code := "FAC-TEST01", currency_code := "USD", seller_user_id := 1,
    seller_name := "Vendedor Uno", sale_date := 1000000, subtotal := 100,
    discount_pct := 0, discount_amount := 0, tax_pct := 0, tax_amount := 0,
    payment_currency_code := "USD", payment_amount := 100, payment_rate_to_usd := 1,
    payment_amount_usd := 100, payment_difference_usd := 0, commission_pct := 7,
    commission_amount_usd := 21/5, manual_total_override := false,
    manual_total_input_usd := none, manual_total_original_usd := none,
    sale_total := 100, line_count := 1 }

set_option maxRecDepth 8000 in
set_option maxHeartbeats 3200000 in
/-- Witness for C10: a 100-USD invoice without an explicit discount gets the
0% suggestion (raw subtotal 100 ≤ 300). -/
theorem create_sale_suggested_discount_witness :
    c10resp.discount_pct = c8req.discount_pct.getD (if 300 < (100 : ℚ) then 7 else 0) :=
  create_sale_suggested_discount baseCtx c10state c8req [(productA, 1)] 100
    c10st2 c10resp
    (by norm_num [validateItems, c8req, findProduct, productA, List.find?,
        exceptOk_bind])
    (by
      have hs : (("none" : String) = "nearest_integer") = False := eq_false (by decide)
      have hstrip : pyStrip "Cliente" = "Cliente" := by decide
      have hstrip0 : pyStrip "" = "" := by decide
      have hupper : pyUpper (pyOr "USD" "USD") = "USD" := by decide
      have hnote : "Venta " ++ "FAC-TEST01" ++ " #" ++ "SKU-A"
          = "Venta FAC-TEST01 #SKU-A" := by decide
      have hupper2 : pyUpper "USD" = "USD" := by decide
      have hceq : (("Cliente" : String) = "") = False := eq_false (by decide)
      have husd : (("USD" : String) == "USD") = true := by decide
      norm_num [createSale, c8req, c10state, baseCtx, productA, validateItems,
        findProduct, List.find?, buildInvoiceLines, collectLineSubtotals,
        prorateLines, applyManual, duplicateCandidates, dedupFirst, sortByDateDesc,
        insertByDateDesc, rowDate, resolveSeller, resolvePayment, lookupRate, pyOr,
        calculateCommissionsForLines, commissionLines, sumBy, List.zipWith,
        applyStockDelta, c10st2, c10row, c10movement, c10resp, exceptOk_bind,
        round2, roundHalfEven, -Int.self_sub_floor, hs, hstrip, hstrip0, hupper,
        hnote, hupper2, hceq, husd])
